import Mathlib

/-!
Verification of the wizzle schema-migration system.

This file gives a shallow embedding, in Lean 4, of the core subsystems of the
wizzle repository and settles a list of claims about them:

* the Migration Application Engine (`src/runtime/drivers/durable-sqlite.ts`
  and `src/runtime/drivers/sqlite-proxy.ts`, function `migrate`);
* the Snapshot Chain Resolver (`src/utils.ts`, function `buildSnapshotChain`);
* the Bookkeeping Table Manager (`src/runtime/migration-table-migrator.ts`,
  functions `tableExists`, `countTableRows`, `migrateOldMigrationTable`);
* the Legacy Journal Converter (`migrateFromJournal` command module,
  functions `validateJournalStructure`, `parseTagName`, `generateFromJournal`).

Modelling conventions: the filesystem and the database are explicit values;
JavaScript exceptions are `Except`/`Option` results; recursion that is
unbounded in JavaScript (the resolver's `traverse`) carries an explicit fuel
argument modelling the call stack, with `none` marking a stack overflow /
divergence at that fuel.  JavaScript numbers that hold integer timestamps and
row counts are `Int`/`Nat`; `NaN` produced by `parseInt` is `Option.none`.
-/

set_option autoImplicit false

namespace Wizzle

/-- One row of the `__wizzle_migrations` ledger table, columns
`hash text NOT NULL, created_at numeric, tag text` (the auto-increment `id`
column is never consulted by the migration logic and is omitted). -/
structure LedgerRow where
  hash : String
  created_at : Int
  tag : Option String
deriving DecidableEq, Repr

/-- `MigrationMeta` from `src/runtime/migrator.ts`: the SQL statements of one
migration unit, its breakpoints flag, its folder timestamp, content hash and
folder tag. -/
structure MigrationMeta where
  sql : List String
  bps : Bool
  folderMillis : Int
  hash : String
  tag : String
deriving DecidableEq, Repr

namespace Engine

/-- The value read by
`SELECT id, hash, created_at FROM __wizzle_migrations ORDER BY created_at DESC LIMIT 1`
in `durable-sqlite.ts` / `sqlite-proxy.ts`: the `created_at` of the row with
the greatest `created_at`, or `none` when the ledger table is empty. -/
def lastLedgerCreatedAt : List LedgerRow → Option Int
  | [] => none
  | r :: rs =>
    some (match lastLedgerCreatedAt rs with
          | none => r.created_at
          | some m => max r.created_at m)

/-- The loop guard
`!lastDbMigration || Number(lastDbMigration[2]) < migration.folderMillis`
of the apply loop. -/
def appliesAfter (lastCreated : Option Int) (m : MigrationMeta) : Bool :=
  match lastCreated with
  | none => true
  | some t => decide (t < m.folderMillis)

/-- The ledger row inserted by
`INSERT INTO __wizzle_migrations ("hash", "created_at", "tag") VALUES (...)`
after a migration unit is executed. -/
def rowOf (m : MigrationMeta) : LedgerRow :=
  ⟨m.hash, m.folderMillis, some m.tag⟩

/-- The `for (const migration of migrations)` loop of `migrate` in
`durable-sqlite.ts`: for each unit passing the cutoff guard, execute its
statements and insert one ledger row.  The cutoff `lastCreated` is read once
before the loop and never updated inside it. -/
def migrateLoop (lastCreated : Option Int) :
    List MigrationMeta → List LedgerRow → List String × List LedgerRow
  | [], ledger => ([], ledger)
  | m :: ms, ledger =>
    if appliesAfter lastCreated m then
      let rest := migrateLoop lastCreated ms (ledger ++ [rowOf m])
      (m.sql ++ rest.1, rest.2)
    else
      migrateLoop lastCreated ms ledger

/-- The Application Engine's `migrate` (durable-sqlite driver), restricted to
its delta computation and apply loop: the ledger table already exists (its
`CREATE TABLE IF NOT EXISTS` is idempotent) and the legacy-ledger
reconciliation that runs before it is modelled separately
(`migrateOldMigrationTable` below); `ledger` is the ledger contents at the
point the engine issues its `ORDER BY created_at DESC LIMIT 1` query.
Returns the executed SQL statements in order and the final ledger. -/
def migrate (ms : List MigrationMeta) (ledger : List LedgerRow) :
    List String × List LedgerRow :=
  migrateLoop (lastLedgerCreatedAt ledger) ms ledger

theorem lastLedgerCreatedAt_eq_none_iff (l : List LedgerRow) :
    lastLedgerCreatedAt l = none ↔ l = [] := by
  cases l <;> simp [lastLedgerCreatedAt]

theorem lastLedgerCreatedAt_le {l : List LedgerRow} {M : Int}
    (h : lastLedgerCreatedAt l = some M) :
    ∀ r ∈ l, r.created_at ≤ M := by
  induction l generalizing M with
  | nil => intro r hr; cases hr
  | cons a l ih =>
    intro r hr
    simp only [lastLedgerCreatedAt] at h
    rcases List.mem_cons.mp hr with h1 | h1
    · subst h1
      cases hl : lastLedgerCreatedAt l with
      | none => simp [hl] at h; omega
      | some m => simp [hl] at h; omega
    · cases hl : lastLedgerCreatedAt l with
      | none => rw [(lastLedgerCreatedAt_eq_none_iff l).mp hl] at h1; cases h1
      | some m =>
        have := ih hl r h1
        simp [hl] at h
        omega

theorem lastLedgerCreatedAt_mem {l : List LedgerRow} {M : Int}
    (h : lastLedgerCreatedAt l = some M) :
    ∃ r ∈ l, r.created_at = M := by
  induction l generalizing M with
  | nil => simp [lastLedgerCreatedAt] at h
  | cons a l ih =>
    simp only [lastLedgerCreatedAt] at h
    cases hl : lastLedgerCreatedAt l with
    | none =>
      simp only [hl, Option.some.injEq] at h
      exact ⟨a, List.mem_cons_self a l, h⟩
    | some m =>
      simp only [hl, Option.some.injEq] at h
      rcases max_cases a.created_at m with ⟨hm, _⟩ | ⟨hm, _⟩
      · exact ⟨a, List.mem_cons_self a l, by omega⟩
      · rcases ih hl with ⟨r, hr, hrm⟩
        exact ⟨r, List.mem_cons_of_mem a hr, by omega⟩

theorem migrateLoop_eq_filter (c : Option Int) (ms : List MigrationMeta) :
    ∀ ledger : List LedgerRow,
      migrateLoop c ms ledger =
        (((ms.filter (appliesAfter c)).map MigrationMeta.sql).flatten,
         ledger ++ (ms.filter (appliesAfter c)).map rowOf) := by
  induction ms with
  | nil => intro ledger; simp [migrateLoop]
  | cons m ms ih =>
    intro ledger
    by_cases h : appliesAfter c m
    · simp [migrateLoop, h, ih, List.filter_cons_of_pos]
    · rw [Bool.not_eq_true] at h
      simp [migrateLoop, h, ih, List.filter_cons_of_neg]

/-- C1: on every ordered migration list and every ledger state, `migrate`
executes and records exactly the units passing the cutoff guard, and that
guard holds exactly when the ledger is empty or the unit's `folderMillis`
is strictly greater than every `created_at` in the ledger — equivalently,
strictly greater than the single most recent (maximum) `created_at`, which
the third conjunct shows is exactly what
`ORDER BY created_at DESC LIMIT 1` returns.  A unit at or below the
high-water mark is neither executed nor recorded; the decision is one
comparison against that mark, not a per-unit existence check. -/
theorem c1_apply_high_water_mark (ms : List MigrationMeta) (ledger : List LedgerRow) :
    migrate ms ledger =
      (((ms.filter (appliesAfter (lastLedgerCreatedAt ledger))).map MigrationMeta.sql).flatten,
       ledger ++ (ms.filter (appliesAfter (lastLedgerCreatedAt ledger))).map rowOf)
    ∧ (∀ m : MigrationMeta,
        appliesAfter (lastLedgerCreatedAt ledger) m = true ↔
          ∀ r ∈ ledger, r.created_at < m.folderMillis)
    ∧ (∀ M : Int, lastLedgerCreatedAt ledger = some M →
        (∃ r ∈ ledger, r.created_at = M) ∧ ∀ r ∈ ledger, r.created_at ≤ M) := by
  refine ⟨migrateLoop_eq_filter _ ms ledger, ?_, ?_⟩
  · intro m
    cases hl : lastLedgerCreatedAt ledger with
    | none =>
      rw [(lastLedgerCreatedAt_eq_none_iff ledger).mp hl]
      simp [appliesAfter]
    | some M =>
      simp only [appliesAfter, decide_eq_true_eq]
      constructor
      · intro h r hr
        exact lt_of_le_of_lt (lastLedgerCreatedAt_le hl r hr) h
      · intro h
        rcases lastLedgerCreatedAt_mem hl with ⟨r, hr, hrM⟩
        rw [← hrM]
        exact h r hr
  · intro M hM
    exact ⟨lastLedgerCreatedAt_mem hM, lastLedgerCreatedAt_le hM⟩

/-- Witness for C1 at a concrete input: a ledger holding one row with
`created_at = 5` admits a unit with `folderMillis = 9`. -/
theorem c1_apply_high_water_mark_witness :
    appliesAfter (lastLedgerCreatedAt [⟨"h0", 5, some "t0"⟩])
        ⟨["CREATE TABLE x (y int)"], true, 9, "h1", "t1"⟩ = true :=
  ((c1_apply_high_water_mark [⟨["CREATE TABLE x (y int)"], true, 9, "h1", "t1"⟩]
      [⟨"h0", 5, some "t0"⟩]).2.1 _).mpr (by decide)

theorem applies_false_of_covered {ms : List MigrationMeta}
    {ledger : List LedgerRow} {M2 : Int}
    (hL : lastLedgerCreatedAt
        (ledger ++ (ms.filter (appliesAfter (lastLedgerCreatedAt ledger))).map rowOf)
        = some M2) :
    ∀ m ∈ ms, appliesAfter (some M2) m = false := by
  intro m hm
  have hle : m.folderMillis ≤ M2 := by
    by_cases h : appliesAfter (lastLedgerCreatedAt ledger) m
    · have hmem : rowOf m ∈
          (ms.filter (appliesAfter (lastLedgerCreatedAt ledger))).map rowOf :=
        List.mem_map_of_mem rowOf (List.mem_filter.mpr ⟨hm, h⟩)
      have := lastLedgerCreatedAt_le hL (rowOf m) (List.mem_append_right _ hmem)
      simpa [rowOf] using this
    · rw [Bool.not_eq_true] at h
      cases hl : lastLedgerCreatedAt ledger with
      | none => rw [hl] at h; simp [appliesAfter] at h
      | some M1 =>
        rw [hl] at h
        simp only [appliesAfter, decide_eq_false_iff_not, not_lt] at h
        rcases lastLedgerCreatedAt_mem hl with ⟨r, hr, hrM⟩
        have hr2 := lastLedgerCreatedAt_le hL r (List.mem_append_left _ hr)
        omega
  simp only [appliesAfter, decide_eq_false_iff_not, not_lt]
  exact hle

/-- C2: running `migrate` a second time against the ledger produced by a
first run, with the same ordered unit set, executes no statements and
inserts no ledger rows, so the ledger row count equals that of a single
run. -/
theorem c2_apply_idempotent (ms : List MigrationMeta) (ledger : List LedgerRow) :
    (migrate ms (migrate ms ledger).2).1 = []
    ∧ (migrate ms (migrate ms ledger).2).2 = (migrate ms ledger).2
    ∧ (migrate ms (migrate ms ledger).2).2.length = (migrate ms ledger).2.length := by
  have h1 : (migrate ms ledger).2 =
      ledger ++ (ms.filter (appliesAfter (lastLedgerCreatedAt ledger))).map rowOf := by
    rw [migrate, migrateLoop_eq_filter]
  have hfilter :
      ms.filter (appliesAfter (lastLedgerCreatedAt (migrate ms ledger).2)) = [] := by
    cases hL : lastLedgerCreatedAt (migrate ms ledger).2 with
    | none =>
      have h2 := (lastLedgerCreatedAt_eq_none_iff _).mp hL
      rw [h1] at h2
      have hled : ledger = [] := (List.append_eq_nil.mp h2).1
      have hsel : ms.filter (appliesAfter (lastLedgerCreatedAt ledger)) = [] :=
        List.map_eq_nil_iff.mp (List.append_eq_nil.mp h2).2
      rw [hled] at hsel
      simp only [lastLedgerCreatedAt, appliesAfter] at hsel ⊢
      rw [List.filter_eq_nil_iff] at hsel ⊢
      intro a ha
      exact hsel a ha
    | some M2 =>
      rw [List.filter_eq_nil_iff]
      intro m hm
      have := @applies_false_of_covered ms ledger M2 (by rw [← h1, hL]) m hm
      simp [this]
  constructor
  · rw [migrate, migrateLoop_eq_filter, hfilter]
    simp
  constructor
  · rw [migrate, migrateLoop_eq_filter, hfilter]
    simp
  · rw [migrate, migrateLoop_eq_filter, hfilter]
    simp

end Engine

namespace Resolver

/-- The ROOT sentinel `prevId` marking the first unit of a lineage
(`originUUID` in the source). -/
def originUUID : String := "00000000-0000-0000-0000-000000000000"

/-- One parsed snapshot, as collected by the parse loop of
`buildSnapshotChain`: the folder name (`tag`), the timestamp extracted from
the folder name, and the snapshot document's `id` and normalised `prevId`. -/
structure Snap where
  tag : String
  timestamp : Nat
  id : String
  prevId : String
deriving DecidableEq, Repr

/-- Content of a `snapshot.json` file: JSON that fails to parse (the
`catch` branch of the parse loop), or a parsed document carrying `id` and an
optional `prevId` (the source requires `id`; a missing or empty `prevId` is
normalised to the empty string by `content.prevId || ''`). -/
inductive SnapFile where
  | malformed : SnapFile
  | parsed (id : String) (prevId : Option String) : SnapFile
deriving DecidableEq, Repr

/-- One entry of `readdirSync(migrationsFolder, { withFileTypes: true })`:
its name, whether it is a directory, and the content of its
`snapshot.json` when that file exists. -/
structure DirEntry where
  name : String
  isDirectory : Bool
  snapshot : Option SnapFile
deriving DecidableEq, Repr

/-- A migrations directory: whether the path exists at all, and its entries
in readdir order. -/
structure MigDir where
  present : Bool
  entries : List DirEntry
deriving DecidableEq, Repr

def digitsVal (cs : List Char) : Nat :=
  cs.foldl (fun n c => n * 10 + (c.toNat - 48)) 0

/-- `getTimestamp`: the regex match `^(\d+)_` on the folder name —
`parseInt` of the leading digit run when it is followed by an underscore,
`0` otherwise. -/
def getTimestamp (folderName : String) : Nat :=
  let cs := folderName.toList
  let ds := cs.takeWhile (fun c => c.isDigit)
  match (cs.drop ds.length).head? with
  | some c => if ds.isEmpty then 0 else if c = '_' then digitsVal ds else 0
  | none => 0

/-- The `folders` list: directory entries that are directories and contain
a `snapshot.json` file; other entries are ignored. -/
def candidateEntries (dir : MigDir) : List DirEntry :=
  dir.entries.filter (fun e => e.isDirectory && e.snapshot.isSome)

/-- The parse loop: every candidate whose snapshot document parses becomes a
`Snap` (with `prevId` normalised by `content.prevId || ''`); a malformed
document is logged and skipped.  (`snapshotsById` is also populated by the
source but never read afterwards, so it is not modelled.) -/
def parseSnaps (entries : List DirEntry) : List Snap :=
  entries.filterMap (fun e =>
    match e.snapshot with
    | some (SnapFile.parsed i p) => some ⟨e.name, getTimestamp e.name, i, p.getD ""⟩
    | _ => none)

def snapsOf (dir : MigDir) : List Snap :=
  parseSnaps (candidateEntries dir)

/-- `snapshotMap.get(key)`: the snapshots whose `prevId` equals `key`, in
parse (readdir) order. -/
def childrenOf (snaps : List Snap) (key : String) : List Snap :=
  snaps.filter (fun s => s.prevId == key)

def tsLe (a b : Snap) : Prop := a.timestamp ≤ b.timestamp

instance : DecidableRel tsLe := fun a b => Nat.decLe a.timestamp b.timestamp

/-- `children.sort((a, b) => a.timestamp - b.timestamp)` — a stable
ascending sort on the timestamp, as guaranteed by `Array.prototype.sort`. -/
def sortByTs (l : List Snap) : List Snap := List.insertionSort tsLe l

/-- `snapshotMap.get(originUUID) || snapshotMap.get('') || []`: the
empty-string bucket is consulted only when the `originUUID` bucket is absent
(in JavaScript a present bucket is a non-empty, hence truthy, array). -/
def rootsOf (snaps : List Snap) : List Snap :=
  let a := childrenOf snaps originUUID
  if a.isEmpty then childrenOf snaps "" else a

/-- The `for (const child of children)` loop shared by `traverse` and the
root loop: for each list element emit its tag and then the output of the
descent `f` into it, in order.  `none` (a stack overflow in the descent)
propagates out. -/
def walkList (f : Snap → Option (List String)) : List Snap → Option (List String)
  | [] => some []
  | c :: cs => do
    let sub ← f c
    let rest ← walkList f cs
    pure (c.tag :: (sub ++ rest))

/-- The recursive `traverse(currentId)`: sort the children of the current
id by timestamp, then emit each child followed by its subtree.  `fuel`
models the JavaScript call-stack depth: each nested `traverse` call consumes
one unit, iterating over siblings does not; `none` marks a stack overflow /
divergence within that depth. -/
def traverseFrom (snaps : List Snap) : Nat → String → Option (List String)
  | 0, _ => none
  | Nat.succ fuel, currentId =>
    walkList (fun c => traverseFrom snaps fuel c.id)
      (sortByTs (childrenOf snaps currentId))

/-- The tail of `buildSnapshotChain` after parsing: pick the root set,
return `[]` (with a warning) when it is empty, otherwise emit each root
(sorted by timestamp) followed by its `traverse(root.id)` subtree. -/
def chainFromSnaps (fuel : Nat) (snaps : List Snap) : Option (List String) :=
  let roots := rootsOf snaps
  if roots.isEmpty then some []
  else walkList (fun r => traverseFrom snaps fuel r.id) (sortByTs roots)

/-- `buildSnapshotChain` (source `src/utils.ts`): `readdirSync` throws
`ENOENT` when the directory does not exist; with no candidate folder the
function returns `[]` before parsing; otherwise it parses the snapshots and
walks the chain. -/
def buildSnapshotChain (fuel : Nat) (dir : MigDir) :
    Except String (Option (List String)) :=
  if dir.present = false then Except.error "ENOENT"
  else if (candidateEntries dir).isEmpty then Except.ok (some [])
  else Except.ok (chainFromSnaps fuel (snapsOf dir))

/-- An existing directory with no entries at all. -/
def emptyDir : MigDir := ⟨true, []⟩

/-- An existing directory whose entries are a subfolder without a
`snapshot.json` and a plain file. -/
def junkDir : MigDir :=
  ⟨true, [⟨"subfolder", true, none⟩, ⟨"readme.md", false, none⟩]⟩

/-- A directory path that does not exist on the filesystem. -/
def missingDir : MigDir := ⟨false, []⟩

/-- C4: `buildSnapshotChain` returns `[]` for an existing empty directory
and for a directory holding only non-snapshot content, but on a nonexistent
directory `readdirSync` throws `ENOENT` instead of returning `[]` — contrary
to the claim and to the repository's own test, which asserts that the
function "doesn't throw on non-existent folder, it returns []". -/
theorem c4_missing_directory_raises :
    buildSnapshotChain 1 emptyDir = Except.ok (some [])
    ∧ buildSnapshotChain 1 junkDir = Except.ok (some [])
    ∧ buildSnapshotChain 1 missingDir = Except.error "ENOENT" :=
  ⟨rfl, rfl, rfl⟩

/-- A directory holding one unit rooted at the ROOT sentinel and one rooted
at the empty string. -/
def mixedRootsDir : MigDir :=
  ⟨true,
   [⟨"1_a", true, some (SnapFile.parsed "a" (some originUUID))⟩,
    ⟨"2_b", true, some (SnapFile.parsed "b" (some ""))⟩]⟩

/-- C3 counterexample: in `mixedRootsDir` both sentinel spellings occur
("1_a" has `prevId = originUUID`, "2_b" has `prevId = ""`), yet the output
chain is `["1_a"]` only: the source computes the root set as
`snapshotMap.get(originUUID) || snapshotMap.get('')`, so the empty-string
bucket is a fallback, not a union, and the `"2_b"` lineage is dropped —
refuting the claim that both lineages appear. -/
theorem c3_counterexample :
    snapsOf mixedRootsDir =
      [⟨"1_a", 1, "a", originUUID⟩, ⟨"2_b", 2, "b", ""⟩]
    ∧ buildSnapshotChain 3 mixedRootsDir = Except.ok (some ["1_a"]) :=
  ⟨rfl, rfl⟩

/-- C3 (amended): the empty string is accepted as a root sentinel only as a
fallback, not as an equivalent of the ROOT sentinel: when at least one
parsed unit has `prevId = originUUID` the root set is exactly those units,
and empty-string-rooted units are not roots; only when no unit is rooted at
`originUUID` does the root set become the units whose `prevId` is empty. -/
theorem c3_empty_string_root_fallback (snaps : List Snap) :
    ((∃ u ∈ snaps, u.prevId = originUUID) →
       rootsOf snaps = snaps.filter (fun u => u.prevId == originUUID))
    ∧ ((¬ ∃ u ∈ snaps, u.prevId = originUUID) →
       rootsOf snaps = snaps.filter (fun u => u.prevId == "")) := by
  constructor
  · rintro ⟨u, hu, hp⟩
    have hmem : u ∈ childrenOf snaps originUUID :=
      List.mem_filter.mpr ⟨hu, by simp [hp]⟩
    have hne : (childrenOf snaps originUUID).isEmpty = false := by
      cases h : childrenOf snaps originUUID with
      | nil => rw [h] at hmem; cases hmem
      | cons a l => rfl
    simp only [rootsOf, hne, Bool.false_eq_true, if_false]
    rfl
  · intro h
    have hnil : childrenOf snaps originUUID = [] := by
      cases hc : childrenOf snaps originUUID with
      | nil => rfl
      | cons a l =>
        exfalso
        apply h
        have ha : a ∈ childrenOf snaps originUUID := by
          rw [hc]; exact List.mem_cons_self a l
        have := List.mem_filter.mp ha
        exact ⟨a, this.1, by simpa using this.2⟩
    simp only [rootsOf, hnil, List.isEmpty_nil, if_true]
    rfl

/-- Witness for the C3 amendment at `mixedRootsDir`: since a unit rooted at
the ROOT sentinel is present, the root set is exactly the
`originUUID`-rooted units. -/
theorem c3_empty_string_root_fallback_witness :
    rootsOf (snapsOf mixedRootsDir) =
      (snapsOf mixedRootsDir).filter (fun u => u.prevId == originUUID) :=
  (c3_empty_string_root_fallback (snapsOf mixedRootsDir)).1 (by decide)

/-- A directory holding a single parsed unit with `id = ""` and a missing
`prevId` (normalised to `""`). -/
def loopDir : MigDir := ⟨true, [⟨"0_l", true, some (SnapFile.parsed "" none)⟩]⟩

/-- The traversal diverges on `dir` at every stack depth. -/
def chainDiverges (dir : MigDir) : Prop :=
  ∀ fuel : Nat, buildSnapshotChain fuel dir = Except.ok none

/-- C10 counterexample: `loopDir` has trivially pairwise-distinct ids, yet
its single unit is picked as a root from the empty-string bucket and
`traverse("")` then finds that same unit among the children of key `""`
again, recursing forever: distinctness of ids alone does not make the
child-following recursion well-founded. -/
theorem c10_counterexample :
    ((snapsOf loopDir).map Snap.id).Nodup ∧ chainDiverges loopDir := by
  constructor
  · decide
  · intro fuel
    have hc : sortByTs (childrenOf (snapsOf loopDir) "") =
        [(⟨"0_l", 0, "", ""⟩ : Snap)] := rfl
    have key : ∀ n : Nat, traverseFrom (snapsOf loopDir) n "" = none := by
      intro n
      induction n with
      | zero => rfl
      | succ m ih =>
        have h1 : traverseFrom (snapsOf loopDir) (m + 1) "" =
            walkList (fun c => traverseFrom (snapsOf loopDir) m c.id)
              (sortByTs (childrenOf (snapsOf loopDir) "")) := rfl
        rw [h1, hc]
        simp [walkList, ih]
    have h2 : buildSnapshotChain fuel loopDir =
        Except.ok (chainFromSnaps fuel (snapsOf loopDir)) := rfl
    have h3 : chainFromSnaps fuel (snapsOf loopDir) =
        walkList (fun r => traverseFrom (snapsOf loopDir) fuel r.id)
          (sortByTs (rootsOf (snapsOf loopDir))) := rfl
    have h4 : sortByTs (rootsOf (snapsOf loopDir)) =
        [(⟨"0_l", 0, "", ""⟩ : Snap)] := rfl
    rw [h2, h3, h4]
    simp [walkList, key fuel]

/-- Reversed parent-link chain: `linksTo K [u_m, ..., u_0] k` states that
`u_0.prevId = K`, each `u_i.prevId` is the id of its predecessor, and
`u_m.id = k`. -/
def linksTo (rootKey : String) : List Snap → String → Prop
  | [], k => k = rootKey
  | u :: p, k => u.id = k ∧ linksTo rootKey p u.prevId

theorem linksTo_mem_suffix {K : String} {p : List Snap} {k : String}
    (h : linksTo K p k) {c : Snap} (hc : c ∈ p) :
    ∃ q : List Snap, (c :: q) <:+ p ∧ linksTo K (c :: q) c.id := by
  induction p generalizing k with
  | nil => cases hc
  | cons u p ih =>
    rcases h with ⟨hid, hrest⟩
    rcases List.mem_cons.mp hc with rfl | hc2
    · exact ⟨p, List.suffix_refl _, rfl, hrest⟩
    · rcases ih hrest hc2 with ⟨q, hq, hl⟩
      exact ⟨q, hq.trans (List.suffix_cons u p), hl⟩

theorem id_inj {snaps : List Snap} (hids : (snaps.map Snap.id).Nodup)
    {a b : Snap} (ha : a ∈ snaps) (hb : b ∈ snaps) (hab : a.id = b.id) :
    a = b :=
  List.inj_on_of_nodup_map hids ha hb hab

/-- A unit of `snaps` whose `prevId` is the current key cannot already lie
on the current root-to-node path, when ids are pairwise distinct and no id
equals a root sentinel spelling. -/
theorem not_mem_path {snaps : List Snap}
    (hids : (snaps.map Snap.id).Nodup)
    (hsent : ∀ u ∈ snaps, u.id ≠ originUUID ∧ u.id ≠ "")
    {K : String} (hK : K = originUUID ∨ K = "")
    {p : List Snap} {k : String}
    (hp : linksTo K p k) (hmem : ∀ u ∈ p, u ∈ snaps) (hnd : p.Nodup)
    {c : Snap} (hck : c.prevId = k) :
    c ∉ p := by
  intro hcp
  cases p with
  | nil => cases hcp
  | cons u p2 =>
    rcases hp with ⟨huk, hp2⟩
    rcases linksTo_mem_suffix (show linksTo K (u :: p2) k from ⟨huk, hp2⟩) hcp
      with ⟨q, hsuf, -, hq⟩
    rw [hck] at hq
    cases q with
    | nil =>
      have hu := hmem u (List.mem_cons_self u p2)
      rcases hsent u hu with ⟨h1, h2⟩
      rcases hK with rfl | rfl
      · exact h1 (huk.trans hq)
      · exact h2 (huk.trans hq)
    | cons d q2 =>
      rcases hq with ⟨hdk, -⟩
      have hdp : d ∈ u :: p2 :=
        hsuf.subset (List.mem_cons_of_mem c (List.mem_cons_self d q2))
      have hdu : d = u :=
        id_inj hids (hmem d hdp) (hmem u (List.mem_cons_self u p2))
          (by rw [hdk, huk])
      have hdp2 : d ∈ p2 := by
        rcases List.suffix_cons_iff.mp hsuf with heq | hsuf2
        · have : d :: q2 = p2 := by injection heq
          rw [← this]; exact List.mem_cons_self d q2
        · exact hsuf2.subset (List.mem_cons_of_mem c (List.mem_cons_self d q2))
      rw [hdu] at hdp2
      exact (List.nodup_cons.mp hnd).1 hdp2

theorem walkList_isSome {f : Snap → Option (List String)} {cs : List Snap}
    (h : ∀ c ∈ cs, (f c).isSome) : (walkList f cs).isSome := by
  induction cs with
  | nil => rfl
  | cons c cs ih =>
    rcases Option.isSome_iff_exists.mp (h c (List.mem_cons_self c cs))
      with ⟨sub, hsub⟩
    rcases Option.isSome_iff_exists.mp
        (ih fun x hx => h x (List.mem_cons_of_mem c hx)) with ⟨rest, hrest⟩
    simp [walkList, hsub, hrest]

/-- Fuel-indexed termination: with distinct ids, no sentinel-valued ids,
and a root-to-node path `p` witnessing how the walk reached key `k`, the
traversal from `k` succeeds whenever `fuel + |p|` exceeds the number of
units. -/
theorem traverseFrom_isSome {snaps : List Snap}
    (hids : (snaps.map Snap.id).Nodup)
    (hsent : ∀ u ∈ snaps, u.id ≠ originUUID ∧ u.id ≠ "")
    {K : String} (hK : K = originUUID ∨ K = "") :
    ∀ fuel : Nat, ∀ p : List Snap, ∀ k : String,
      linksTo K p k → (∀ u ∈ p, u ∈ snaps) → p.Nodup →
      snaps.length + 1 ≤ fuel + p.length →
      (traverseFrom snaps fuel k).isSome := by
  intro fuel
  induction fuel with
  | zero =>
    intro p k hp hmem hnd hfuel
    exfalso
    have hsub : p ⊆ snaps := fun u hu => hmem u hu
    have := (hnd.subperm hsub).length_le
    omega
  | succ fuel ih =>
    intro p k hp hmem hnd hfuel
    show (walkList _ _).isSome
    apply walkList_isSome
    intro c hc
    have hc2 : c ∈ childrenOf snaps k :=
      (List.Perm.mem_iff (List.perm_insertionSort _ _)).mp hc
    have hcsn := List.mem_filter.mp hc2
    have hcid : c.prevId = k := by simpa using hcsn.2
    have hcnot : c ∉ p := not_mem_path hids hsent hK hp hmem hnd hcid
    apply ih (c :: p) c.id
    · exact ⟨rfl, by rw [hcid]; exact hp⟩
    · intro u hu
      rcases List.mem_cons.mp hu with rfl | hu2
      · exact hcsn.1
      · exact hmem u hu2
    · exact List.nodup_cons.mpr ⟨hcnot, hnd⟩
    · simp only [List.length_cons]
      omega

/-- C10 (amended): for every directory whose parseable snapshots have
pairwise-distinct ids none of which equals the ROOT sentinel or the empty
string, the traversal terminates within stack depth `|snaps| + 1` and
returns a finite chain.  (The sentinel-id exclusion is forced by
`c10_counterexample`: distinct ids alone do not suffice.) -/
theorem c10_termination (dir : MigDir)
    (hpres : dir.present = true)
    (hids : ((snapsOf dir).map Snap.id).Nodup)
    (hsent : ∀ u ∈ snapsOf dir, u.id ≠ originUUID ∧ u.id ≠ "") :
    ∃ l, buildSnapshotChain ((snapsOf dir).length + 1) dir =
      Except.ok (some l) := by
  rw [buildSnapshotChain, hpres]
  rw [if_neg (by simp)]
  by_cases hcand : (candidateEntries dir).isEmpty
  · rw [if_pos hcand]
    exact ⟨[], rfl⟩
  · rw [if_neg hcand]
    simp only [chainFromSnaps]
    by_cases hroots : (rootsOf (snapsOf dir)).isEmpty
    · rw [if_pos hroots]
      exact ⟨[], rfl⟩
    · rw [if_neg hroots]
      have hsome : (walkList
          (fun r => traverseFrom (snapsOf dir) ((snapsOf dir).length + 1) r.id)
          (sortByTs (rootsOf (snapsOf dir)))).isSome := by
        apply walkList_isSome
        intro r hr
        have hr2 : r ∈ rootsOf (snapsOf dir) :=
          (List.Perm.mem_iff (List.perm_insertionSort _ _)).mp hr
        by_cases he : (childrenOf (snapsOf dir) originUUID).isEmpty
        · have hr3 : r ∈ childrenOf (snapsOf dir) "" := by
            simpa [rootsOf, he] using hr2
          have hrf := List.mem_filter.mp hr3
          refine traverseFrom_isSome hids hsent (Or.inr rfl) _ [r] r.id
            ⟨rfl, by simpa using hrf.2⟩ ?_ ?_ ?_
          · intro u hu
            rcases List.mem_cons.mp hu with rfl | hu2
            · exact hrf.1
            · cases hu2
          · exact List.nodup_singleton r
          · simp
        · have hr3 : r ∈ childrenOf (snapsOf dir) originUUID := by
            simpa [rootsOf, he] using hr2
          have hrf := List.mem_filter.mp hr3
          refine traverseFrom_isSome hids hsent (Or.inl rfl) _ [r] r.id
            ⟨rfl, by simpa using hrf.2⟩ ?_ ?_ ?_
          · intro u hu
            rcases List.mem_cons.mp hu with rfl | hu2
            · exact hrf.1
            · cases hu2
          · exact List.nodup_singleton r
          · simp
      rcases Option.isSome_iff_exists.mp hsome with ⟨l, hl⟩
      exact ⟨l, by rw [hl]⟩

theorem filter_subpred {α : Type} (l : List α) (p r : α → Bool)
    (h : ∀ x ∈ l, p x = true → r x = true) :
    (l.filter r).filter p = l.filter p := by
  induction l with
  | nil => rfl
  | cons a l ih =>
    have ih2 := ih fun x hx => h x (List.mem_cons_of_mem a hx)
    by_cases hp : p a
    · have hr := h a (List.mem_cons_self a l) hp
      simp [List.filter_cons, hr, hp, ih2]
    · by_cases hr : r a
      · simp [List.filter_cons, hr, hp, ih2]
      · simp [List.filter_cons, hr, hp, ih2]

theorem walkList_congr {f g : Snap → Option (List String)} {cs : List Snap}
    (h : ∀ c ∈ cs, f c = g c) : walkList f cs = walkList g cs := by
  induction cs with
  | nil => rfl
  | cons c cs ih =>
    have ih2 := ih fun x hx => h x (List.mem_cons_of_mem c hx)
    simp [walkList, h c (List.mem_cons_self c cs), ih2]

theorem walkList_tags {f : Snap → Option (List String)} {cs : List Snap}
    {l : List String} (h : walkList f cs = some l) :
    ∀ t ∈ l, (∃ c ∈ cs, c.tag = t)
      ∨ (∃ c ∈ cs, ∃ l2, f c = some l2 ∧ t ∈ l2) := by
  induction cs generalizing l with
  | nil =>
    simp only [walkList, Option.some.injEq] at h
    intro t ht
    rw [← h] at ht
    cases ht
  | cons c cs ih =>
    simp only [walkList, Option.bind_eq_bind, bind, Option.bind] at h
    cases hf : f c with
    | none => rw [hf] at h; cases h
    | some sub =>
      rw [hf] at h
      cases hr : walkList f cs with
      | none => rw [hr] at h; cases h
      | some rest =>
        rw [hr] at h
        have h2 : c.tag :: (sub ++ rest) = l := by simpa using h
        intro t ht
        rw [← h2] at ht
        rcases List.mem_cons.mp ht with rfl | ht2
        · exact Or.inl ⟨c, List.mem_cons_self c cs, rfl⟩
        · rcases List.mem_append.mp ht2 with hsub | hrest
          · exact Or.inr ⟨c, List.mem_cons_self c cs, sub, hf, hsub⟩
          · rcases ih hr t hrest with ⟨x, hx, hxt⟩ | ⟨x, hx, l2, hl2, hl2t⟩
            · exact Or.inl ⟨x, List.mem_cons_of_mem c hx, hxt⟩
            · exact Or.inr ⟨x, List.mem_cons_of_mem c hx, l2, hl2, hl2t⟩

/-- Every tag emitted by `traverse` is the tag of some parsed snapshot. -/
theorem traverseFrom_tags {snaps : List Snap} :
    ∀ fuel : Nat, ∀ k : String, ∀ l : List String,
      traverseFrom snaps fuel k = some l →
      ∀ t ∈ l, ∃ u ∈ snaps, u.tag = t := by
  intro fuel
  induction fuel with
  | zero => intro k l h; cases h
  | succ fuel ih =>
    intro k l h t ht
    rcases walkList_tags h t ht with ⟨c, hc, hct⟩ | ⟨c, hc, l2, hl2, hl2t⟩
    · have : c ∈ childrenOf snaps k :=
        (List.Perm.mem_iff (List.perm_insertionSort _ _)).mp hc
      exact ⟨c, (List.mem_filter.mp this).1, hct⟩
    · exact ih c.id l2 hl2 t hl2t

/-- Every tag emitted by the full chain walk is the tag of some parsed
snapshot. -/
theorem chainFromSnaps_tags {snaps : List Snap} {fuel : Nat} {l : List String}
    (h : chainFromSnaps fuel snaps = some l) :
    ∀ t ∈ l, ∃ u ∈ snaps, u.tag = t := by
  by_cases hroots : (rootsOf snaps).isEmpty
  · simp only [chainFromSnaps, hroots, if_true] at h
    intro t ht
    rw [← Option.some.injEq _ _ |>.mp h] at ht
    cases ht
  · simp only [chainFromSnaps, hroots, Bool.false_eq_true, if_false] at h
    intro t ht
    rcases walkList_tags h t ht with ⟨c, hc, hct⟩ | ⟨c, hc, l2, hl2, hl2t⟩
    · have hc2 : c ∈ rootsOf snaps :=
        (List.Perm.mem_iff (List.perm_insertionSort _ _)).mp hc
      have : c ∈ snaps := by
        by_cases he : (childrenOf snaps originUUID).isEmpty
        · have : c ∈ childrenOf snaps "" := by simpa [rootsOf, he] using hc2
          exact (List.mem_filter.mp this).1
        · have : c ∈ childrenOf snaps originUUID := by
            simpa [rootsOf, he] using hc2
          exact (List.mem_filter.mp this).1
      exact ⟨c, this, hct⟩
    · exact traverseFrom_tags _ c.id l2 hl2 t hl2t

section BrokenChain

variable {snaps : List Snap} {d : Snap} {D : List Snap}

/-- A key is `good` when it is an id of a surviving (non-`D`) unit or a root
sentinel key: these are exactly the keys the traversal can reach without
entering the dangling branch. -/
def goodKey (snaps : List Snap) (D : List Snap) (k : String) : Prop :=
  (∃ c ∈ snaps, c ∉ D ∧ c.id = k) ∨ k = originUUID ∨ k = ""

theorem no_D_child
    (hids : (snaps.map Snap.id).Nodup)
    (hsent : ∀ u ∈ snaps, u.id ≠ originUUID ∧ u.id ≠ "")
    (hdang : (∀ u ∈ snaps, u.id ≠ d.prevId)
      ∧ d.prevId ≠ originUUID ∧ d.prevId ≠ "")
    (hDsub : ∀ e ∈ D, e ∈ snaps)
    (hDsound : ∀ e ∈ D, e = d ∨ ∃ f ∈ D, e.prevId = f.id)
    {k : String} (hgood : goodKey snaps D k)
    {x : Snap} (_hx : x ∈ snaps) (hxk : x.prevId = k) :
    x ∉ D := by
  intro hxD
  rcases hDsound x hxD with rfl | ⟨f, hfD, hf⟩
  · rcases hgood with ⟨c, hc, hcD, hck⟩ | rfl | rfl
    · exact hdang.1 c hc (hck.trans hxk.symm)
    · exact hdang.2.1 hxk
    · exact hdang.2.2 hxk
  · rcases hgood with ⟨c, hc, hcD, hck⟩ | rfl | rfl
    · exact hcD (id_inj hids (hDsub f hfD) hc (hf.symm.trans hxk |>.trans hck.symm) ▸ hfD)
    · exact (hsent f (hDsub f hfD)).1 (hf.symm.trans hxk)
    · exact (hsent f (hDsub f hfD)).2 (hf.symm.trans hxk)

theorem childrenOf_minusD
    (hids : (snaps.map Snap.id).Nodup)
    (hsent : ∀ u ∈ snaps, u.id ≠ originUUID ∧ u.id ≠ "")
    (hdang : (∀ u ∈ snaps, u.id ≠ d.prevId)
      ∧ d.prevId ≠ originUUID ∧ d.prevId ≠ "")
    (hDsub : ∀ e ∈ D, e ∈ snaps)
    (hDsound : ∀ e ∈ D, e = d ∨ ∃ f ∈ D, e.prevId = f.id)
    {k : String} (hgood : goodKey snaps D k) :
    childrenOf (snaps.filter fun u => decide (u ∉ D)) k = childrenOf snaps k := by
  apply filter_subpred
  intro x hx hxk
  have hxk2 : x.prevId = k := by simpa using hxk
  simpa using no_D_child hids hsent hdang hDsub hDsound hgood hx hxk2

theorem traverseFrom_minusD
    (hids : (snaps.map Snap.id).Nodup)
    (hsent : ∀ u ∈ snaps, u.id ≠ originUUID ∧ u.id ≠ "")
    (hdang : (∀ u ∈ snaps, u.id ≠ d.prevId)
      ∧ d.prevId ≠ originUUID ∧ d.prevId ≠ "")
    (hDsub : ∀ e ∈ D, e ∈ snaps)
    (hDsound : ∀ e ∈ D, e = d ∨ ∃ f ∈ D, e.prevId = f.id) :
    ∀ fuel : Nat, ∀ k : String, goodKey snaps D k →
      traverseFrom snaps fuel k =
        traverseFrom (snaps.filter fun u => decide (u ∉ D)) fuel k := by
  intro fuel
  induction fuel with
  | zero => intro k _; rfl
  | succ fuel ih =>
    intro k hgood
    show walkList _ _ = walkList _ _
    rw [childrenOf_minusD hids hsent hdang hDsub hDsound hgood]
    apply walkList_congr
    intro c hc
    have hc2 : c ∈ childrenOf snaps k :=
      (List.Perm.mem_iff (List.perm_insertionSort _ _)).mp hc
    have hcf := List.mem_filter.mp hc2
    have hck : c.prevId = k := by simpa using hcf.2
    have hcD : c ∉ D := no_D_child hids hsent hdang hDsub hDsound hgood hcf.1 hck
    exact ih c.id (Or.inl ⟨c, hcf.1, hcD, rfl⟩)

theorem rootsOf_minusD
    (hids : (snaps.map Snap.id).Nodup)
    (hsent : ∀ u ∈ snaps, u.id ≠ originUUID ∧ u.id ≠ "")
    (hdang : (∀ u ∈ snaps, u.id ≠ d.prevId)
      ∧ d.prevId ≠ originUUID ∧ d.prevId ≠ "")
    (hDsub : ∀ e ∈ D, e ∈ snaps)
    (hDsound : ∀ e ∈ D, e = d ∨ ∃ f ∈ D, e.prevId = f.id) :
    rootsOf (snaps.filter fun u => decide (u ∉ D)) = rootsOf snaps := by
  unfold rootsOf
  rw [childrenOf_minusD hids hsent hdang hDsub hDsound (Or.inr (Or.inl rfl)),
      childrenOf_minusD hids hsent hdang hDsub hDsound (Or.inr (Or.inr rfl))]

end BrokenChain

/-- A directory in which `"1_w"` and `"2_d"` share the id `"x"`; `"2_d"`
dangles (its `prevId` `"zzz"` names no unit) and `"3_e"` is chained from it
(`prevId = "x"`). -/
def duplicateIdDir : MigDir :=
  ⟨true,
   [⟨"1_w", true, some (SnapFile.parsed "x" (some originUUID))⟩,
    ⟨"2_d", true, some (SnapFile.parsed "x" (some "zzz"))⟩,
    ⟨"3_e", true, some (SnapFile.parsed "y" (some "x"))⟩]⟩

/-- C5 counterexample: in `duplicateIdDir` the unit `"2_d"` has a `prevId`
(`"zzz"`) absent from the id set, and `"3_e"` is transitively chained from
it (`"3_e".prevId = "2_d".id = "x"`) — yet `"3_e"` appears in the output,
because the duplicated id `"x"` also belongs to the reachable root `"1_w"`.
The claim's universal statement (the dangling unit and everything chained
from it are absent, for every directory) therefore fails; distinct ids are
needed. -/
theorem c5_counterexample :
    snapsOf duplicateIdDir =
      [⟨"1_w", 1, "x", originUUID⟩, ⟨"2_d", 2, "x", "zzz"⟩, ⟨"3_e", 3, "y", "x"⟩]
    ∧ buildSnapshotChain 5 duplicateIdDir = Except.ok (some ["1_w", "3_e"]) :=
  ⟨rfl, rfl⟩

/-- C5 (amended): in a directory whose parsed snapshots have
pairwise-distinct ids, none equal to a root sentinel spelling, and
pairwise-distinct folder names, a unit `d` whose `prevId` names no unit and
is no sentinel truncates only its own branch: the chain over the full
snapshot set is, at every stack depth, identical to the chain over the set
with `d`'s branch `D` removed (so all other units are emitted unchanged);
no member of `D` ever appears in the output; and no error is raised.  `D`
is any parent-closed set of units chained from `d` (`hDsound`); taking it
inductively closed (`hDclosed`) makes it the full dangling branch. -/
theorem c5_broken_chain_truncates (dir : MigDir)
    (hpres : dir.present = true)
    (hids : ((snapsOf dir).map Snap.id).Nodup)
    (hsent : ∀ u ∈ snapsOf dir, u.id ≠ originUUID ∧ u.id ≠ "")
    (htags : ((snapsOf dir).map Snap.tag).Nodup)
    (d : Snap) (_hdmem : d ∈ snapsOf dir)
    (hdang : (∀ u ∈ snapsOf dir, u.id ≠ d.prevId)
      ∧ d.prevId ≠ originUUID ∧ d.prevId ≠ "")
    (D : List Snap) (_hDd : d ∈ D)
    (hDsub : ∀ e ∈ D, e ∈ snapsOf dir)
    (hDsound : ∀ e ∈ D, e = d ∨ ∃ f ∈ D, e.prevId = f.id)
    (_hDclosed : ∀ e ∈ snapsOf dir, ∀ f ∈ D, e.prevId = f.id → e ∈ D) :
    (∀ fuel, chainFromSnaps fuel (snapsOf dir) =
       chainFromSnaps fuel ((snapsOf dir).filter fun u => decide (u ∉ D)))
    ∧ (∀ fuel, ∀ l, buildSnapshotChain fuel dir = Except.ok (some l) →
        ∀ e ∈ D, e.tag ∉ l)
    ∧ (∀ fuel, ∃ o, buildSnapshotChain fuel dir = Except.ok o) := by
  have hchain : ∀ fuel, chainFromSnaps fuel (snapsOf dir) =
      chainFromSnaps fuel ((snapsOf dir).filter fun u => decide (u ∉ D)) := by
    intro fuel
    unfold chainFromSnaps
    rw [rootsOf_minusD hids hsent hdang hDsub hDsound]
    by_cases hroots : (rootsOf (snapsOf dir)).isEmpty
    · rw [if_pos hroots, if_pos hroots]
    · rw [if_neg hroots, if_neg hroots]
      apply walkList_congr
      intro r hr
      have hr2 : r ∈ rootsOf (snapsOf dir) :=
        (List.Perm.mem_iff (List.perm_insertionSort _ _)).mp hr
      by_cases he : (childrenOf (snapsOf dir) originUUID).isEmpty
      · have hr3 : r ∈ childrenOf (snapsOf dir) "" := by
          simpa [rootsOf, he] using hr2
        have hrf := List.mem_filter.mp hr3
        have hrk : r.prevId = "" := by simpa using hrf.2
        have hrD : r ∉ D := no_D_child hids hsent hdang hDsub hDsound
          (Or.inr (Or.inr rfl)) hrf.1 hrk
        exact traverseFrom_minusD hids hsent hdang hDsub hDsound fuel r.id
          (Or.inl ⟨r, hrf.1, hrD, rfl⟩)
      · have hr3 : r ∈ childrenOf (snapsOf dir) originUUID := by
          simpa [rootsOf, he] using hr2
        have hrf := List.mem_filter.mp hr3
        have hrk : r.prevId = originUUID := by simpa using hrf.2
        have hrD : r ∉ D := no_D_child hids hsent hdang hDsub hDsound
          (Or.inr (Or.inl rfl)) hrf.1 hrk
        exact traverseFrom_minusD hids hsent hdang hDsub hDsound fuel r.id
          (Or.inl ⟨r, hrf.1, hrD, rfl⟩)
  refine ⟨hchain, ?_, ?_⟩
  · intro fuel l hl e heD het
    have hok : buildSnapshotChain fuel dir =
        Except.ok (chainFromSnaps fuel (snapsOf dir))
        ∨ buildSnapshotChain fuel dir = Except.ok (some []) := by
      unfold buildSnapshotChain
      rw [if_neg (by simp [hpres])]
      by_cases hcand : (candidateEntries dir).isEmpty
      · rw [if_pos hcand]; exact Or.inr rfl
      · rw [if_neg hcand]; exact Or.inl rfl
    rcases hok with hok | hok
    · rw [hok] at hl
      have hchl : chainFromSnaps fuel (snapsOf dir) = some l :=
        Except.ok.inj hl
      rw [hchain fuel] at hchl
      rcases chainFromSnaps_tags hchl e.tag het with ⟨u, hu, hut⟩
      have huf := List.mem_filter.mp hu
      have huD : u ∉ D := by simpa using huf.2
      have : u = e :=
        List.inj_on_of_nodup_map htags huf.1 (hDsub e heD) hut
      rw [this] at huD
      exact huD heD
    · rw [hok] at hl
      have : ([] : List String) = l := Except.ok.inj hl |> Option.some.inj
      rw [← this] at het
      cases het
  · intro fuel
    unfold buildSnapshotChain
    rw [if_neg (by simp [hpres])]
    by_cases hcand : (candidateEntries dir).isEmpty
    · rw [if_pos hcand]; exact ⟨some [], rfl⟩
    · rw [if_neg hcand]; exact ⟨_, rfl⟩

/-- A two-unit lineage with distinct, non-sentinel ids. -/
def smallChainDir : MigDir :=
  ⟨true,
   [⟨"10_first", true, some (SnapFile.parsed "aa" (some originUUID))⟩,
    ⟨"20_second", true, some (SnapFile.parsed "bb" (some "aa"))⟩]⟩

/-- Witness for C10's amended termination statement on `smallChainDir`. -/
theorem c10_termination_witness :
    ∃ l, buildSnapshotChain ((snapsOf smallChainDir).length + 1) smallChainDir
      = Except.ok (some l) :=
  c10_termination smallChainDir rfl (by decide) (by decide)

/-- A directory with a root lineage `"1_a"`, a dangling unit `"2_d"`
(whose `prevId` `"zzz"` names no unit) and a unit `"3_e"` chained from it;
all ids are distinct and non-sentinel. -/
def truncDir : MigDir :=
  ⟨true,
   [⟨"1_a", true, some (SnapFile.parsed "a" (some originUUID))⟩,
    ⟨"2_d", true, some (SnapFile.parsed "x" (some "zzz"))⟩,
    ⟨"3_e", true, some (SnapFile.parsed "y" (some "x"))⟩]⟩

/-- Witness for C5's amended statement on `truncDir`: removing the dangling
branch `{"2_d", "3_e"}` leaves the chain unchanged. -/
theorem c5_broken_chain_truncates_witness :
    chainFromSnaps 4 (snapsOf truncDir) =
      chainFromSnaps 4 ((snapsOf truncDir).filter fun u =>
        decide (u ∉ [(⟨"2_d", 2, "x", "zzz"⟩ : Snap), ⟨"3_e", 3, "y", "x"⟩])) :=
  (c5_broken_chain_truncates truncDir rfl (by decide) (by decide) (by decide)
    ⟨"2_d", 2, "x", "zzz"⟩ (by decide) (by decide)
    [⟨"2_d", 2, "x", "zzz"⟩, ⟨"3_e", 3, "y", "x"⟩]
    (by decide) (by decide) (by decide) (by decide)).1 4

end Resolver

namespace Bookkeeping

/-- The four dialect variants of `migration-table-migrator.ts`. -/
inductive DatabaseDialect where
  | postgresql
  | mysql
  | sqlite
  | singlestore
deriving DecidableEq, Repr

/-- `MigrationTableConfig`: new/old ledger table names and (PostgreSQL
only) schemas. -/
structure MigrationTableConfig where
  newTable : String
  newSchema : Option String
  oldTable : String
  oldSchema : Option String
deriving DecidableEq, Repr

/-- A value inside one of the driver's generic result-row records. -/
inductive Val where
  | vBool (b : Bool)
  | vStr (s : String)
  | vInt (n : Int)
  | vNull
deriving DecidableEq, Repr

/-- One result row: column name to value. -/
abbrev QRow := List (String × Val)

/-- The `executor` callback handed to the Bookkeeping Table Manager: runs
one SQL string against the target and either returns rows or throws. -/
structure ExecEnv where
  respond : String → Except Unit (List QRow)

/-- `row.column` access on a generic row record (`undefined` is `none`). -/
def colVal (r : QRow) (c : String) : Option Val :=
  (r.find? fun p => p.1 == c).map Prod.snd

/-- `result[0]?.column`. -/
def firstCol (rows : List QRow) (c : String) : Option Val :=
  rows.head?.bind fun r => colVal r c

/-- Single-quote an SQL literal (the source interpolates `'${x}'`). -/
def sq (s : String) : String := "\x27" ++ s ++ "\x27"

/-- Double-quote an SQL identifier (the source interpolates `"${x}"`). -/
def dq (s : String) : String := "\"" ++ s ++ "\""

/-- `"schema"."table"` or `"table"`, as built for `fullTableName`. -/
def fullName (schema : Option String) (table : String) : String :=
  match schema with
  | some s => dq s ++ "." ++ dq table
  | none => dq table

/-- The existence probe issued by `tableExists`, per dialect (template
whitespace normalised to single spaces). -/
def tableExistsSql (dialect : DatabaseDialect) (tableName : String)
    (schemaName : Option String) : String :=
  match dialect with
  | .postgresql =>
    "SELECT EXISTS (SELECT FROM information_schema.tables WHERE table_schema = "
      ++ sq (schemaName.getD "public") ++ " AND table_name = " ++ sq tableName ++ ")"
  | .mysql | .singlestore =>
    "SELECT COUNT(*) as count FROM information_schema.tables WHERE table_name = "
      ++ sq tableName
  | .sqlite =>
    "SELECT name FROM sqlite_master WHERE type=" ++ sq "table"
      ++ " AND name=" ++ sq tableName

/-- JavaScript numeric coercion of a row value, as used by
`result[0]?.count > 0` (`NaN` is `none`; string contents are restricted to
the digit strings count queries produce). -/
def jsNumOfVal : Val → Option Int
  | .vInt n => some n
  | .vStr s =>
    if s = "" then some 0
    else if s.toList.all Char.isDigit then some (Int.ofNat (Resolver.digitsVal s.toList))
    else none
  | .vBool true => some 1
  | .vBool false => some 0
  | .vNull => some 0

def gtZeroNum (o : Option Int) : Bool :=
  match o with
  | some n => decide (0 < n)
  | none => false

/-- `tableExists` (lines 15-51): issue the dialect's probe; interpret the
rows (`exists === true || exists === 't'` / `count > 0` / `length > 0`);
any throw is caught and yields `false`. -/
def tableExistsAns (env : ExecEnv) (dialect : DatabaseDialect)
    (tableName : String) (schemaName : Option String) : Bool :=
  match env.respond (tableExistsSql dialect tableName schemaName) with
  | .error _ => false
  | .ok rows =>
    match dialect with
    | .postgresql =>
      match firstCol rows "exists" with
      | some (.vBool true) => true
      | some (.vStr s) => s == "t"
      | _ => false
    | .mysql | .singlestore =>
      match firstCol rows "count" with
      | some v => gtZeroNum (jsNumOfVal v)
      | none => false
    | .sqlite => decide (rows.length > 0)

/-- The row-count probe issued by `countTableRows`. -/
def countTableRowsSql (tableName : String) (schemaName : Option String) : String :=
  "SELECT COUNT(*) as count FROM " ++ fullName schemaName tableName

/-- JavaScript `parseInt(s, 10)` restricted to the digit strings count
queries produce (`none` is `NaN`). -/
def parseIntJS (s : String) : Option Int :=
  let ds := s.toList.takeWhile Char.isDigit
  if ds.isEmpty then none else some (Int.ofNat (Resolver.digitsVal ds))

/-- JavaScript truthiness of a row value. -/
def jsTruthy : Val → Bool
  | .vInt n => decide (n ≠ 0)
  | .vStr s => decide (s ≠ "")
  | .vBool b => b
  | .vNull => false

/-- `parseInt(result[0]?.count || '0', 10)`: a falsy count becomes `'0'`,
hence `0`; a truthy one goes through `parseInt` (`none` is `NaN`). -/
def countAnsOfRows (rows : List QRow) : Option Int :=
  match firstCol rows "count" with
  | none => some 0
  | some v =>
    if jsTruthy v then
      match v with
      | .vInt n => some n
      | .vStr s => parseIntJS s
      | .vBool _ => none
      | .vNull => some 0
    else some 0

/-- `countTableRows` (lines 56-68): issue the probe, parse the count; any
throw is caught and yields `0`. -/
def countTableRowsAns (env : ExecEnv) (tableName : String)
    (schemaName : Option String) : Option Int :=
  match env.respond (countTableRowsSql tableName schemaName) with
  | .error _ => some 0
  | .ok rows => countAnsOfRows rows

def gtZero (o : Option Int) : Bool :=
  match o with
  | some n => decide (0 < n)
  | none => false

def eqZero (o : Option Int) : Bool :=
  match o with
  | some n => decide (n = 0)
  | none => false

/-- The `tag`-column probe of step 4, per dialect. -/
def hasTagColumnSql (dialect : DatabaseDialect) (oldTable : String)
    (oldSchema : Option String) : String :=
  match dialect with
  | .postgresql =>
    "SELECT column_name FROM information_schema.columns WHERE table_name = "
      ++ sq oldTable ++ " AND table_schema = " ++ sq (oldSchema.getD "public")
      ++ " AND column_name = " ++ sq "tag"
  | .mysql | .singlestore =>
    "SELECT COLUMN_NAME FROM INFORMATION_SCHEMA.COLUMNS WHERE TABLE_NAME = "
      ++ sq oldTable ++ " AND COLUMN_NAME = " ++ sq "tag"
  | .sqlite => "PRAGMA table_info(" ++ oldTable ++ ")"

/-- The `tag`-column detection: `length > 0` for the relational dialects,
`result.some(col => col.name === 'tag')` for sqlite; a throw is caught and
yields `false`. -/
def hasTagColumnAns (env : ExecEnv) (dialect : DatabaseDialect)
    (oldTable : String) (oldSchema : Option String) : Bool :=
  match env.respond (hasTagColumnSql dialect oldTable oldSchema) with
  | .error _ => false
  | .ok rows =>
    match dialect with
    | .postgresql | .mysql | .singlestore => decide (rows.length > 0)
    | .sqlite => rows.any fun r => colVal r "name" == some (Val.vStr "tag")

/-- `CREATE SCHEMA IF NOT EXISTS "newSchema"` (PostgreSQL only). -/
def createSchemaSql (newSchema : String) : String :=
  "CREATE SCHEMA IF NOT EXISTS " ++ dq newSchema

/-- The per-dialect `CREATE TABLE IF NOT EXISTS` DDL for the new ledger. -/
def createTableSql (dialect : DatabaseDialect) (config : MigrationTableConfig) :
    String :=
  match dialect with
  | .postgresql =>
    "CREATE TABLE IF NOT EXISTS " ++ dq (config.newSchema.getD "public") ++ "."
      ++ dq config.newTable
      ++ " (id SERIAL PRIMARY KEY, hash text NOT NULL, created_at numeric, tag text)"
  | .mysql | .singlestore =>
    "CREATE TABLE IF NOT EXISTS `" ++ config.newTable
      ++ "` (`id` int AUTO_INCREMENT PRIMARY KEY, `hash` text NOT NULL, `created_at` bigint, `tag` text)"
  | .sqlite =>
    "CREATE TABLE IF NOT EXISTS " ++ dq config.newTable
      ++ " (id INTEGER PRIMARY KEY AUTOINCREMENT, hash text NOT NULL, created_at numeric, tag text)"

/-- The bulk copy `INSERT INTO new (hash, created_at, tag) SELECT ... FROM
old`, selecting the old `tag` column or the literal `NULL`. -/
def copyRowsSql (config : MigrationTableConfig) (hasTag : Bool) : String :=
  let oldFull := fullName config.oldSchema config.oldTable
  let newFull := fullName config.newSchema config.newTable
  if hasTag then
    "INSERT INTO " ++ newFull
      ++ " (hash, created_at, tag) SELECT hash, created_at, tag FROM " ++ oldFull
  else
    "INSERT INTO " ++ newFull
      ++ " (hash, created_at, tag) SELECT hash, created_at, NULL FROM " ++ oldFull

/-- Run one write statement of the step-4 `try` block: record it on the
trace; a throw propagates out (the source logs and `throw error`s). -/
def execWrite (env : ExecEnv) (tr : List String) (sqlq : String)
    (k : List String → List String × Except Unit Unit) :
    List String × Except Unit Unit :=
  match env.respond sqlq with
  | .error e => (tr ++ [sqlq], .error e)
  | .ok _ => k (tr ++ [sqlq])

/-- Step 4 after the optional schema creation: create the new table, probe
for the old `tag` column, copy all rows in one `INSERT...SELECT`. -/
def createAndCopy (env : ExecEnv) (dialect : DatabaseDialect)
    (config : MigrationTableConfig) (tr : List String) :
    List String × Except Unit Unit :=
  execWrite env tr (createTableSql dialect config) fun tr2 =>
    execWrite env
      (tr2 ++ [hasTagColumnSql dialect config.oldTable config.oldSchema])
      (copyRowsSql config
        (hasTagColumnAns env dialect config.oldTable config.oldSchema))
      fun tr4 => (tr4, Except.ok ())

/-- Step 4: `CREATE SCHEMA` first when the dialect is PostgreSQL and a new
schema is configured, then create-and-copy. -/
def step4 (env : ExecEnv) (dialect : DatabaseDialect)
    (config : MigrationTableConfig) (tr : List String) :
    List String × Except Unit Unit :=
  match dialect, config.newSchema with
  | DatabaseDialect.postgresql, some s =>
    execWrite env tr (createSchemaSql s) (createAndCopy env dialect config)
  | _, _ => createAndCopy env dialect config tr

/-- Steps 2-4: return early when the old table is missing or empty,
otherwise migrate. -/
def step2 (env : ExecEnv) (dialect : DatabaseDialect)
    (config : MigrationTableConfig) (tr : List String) :
    List String × Except Unit Unit :=
  let tr2 := tr ++ [tableExistsSql dialect config.oldTable config.oldSchema]
  if tableExistsAns env dialect config.oldTable config.oldSchema then
    let tr3 := tr2 ++ [countTableRowsSql config.oldTable config.oldSchema]
    if eqZero (countTableRowsAns env config.oldTable config.oldSchema) then
      (tr3, Except.ok ())
    else step4 env dialect config tr3
  else (tr2, Except.ok ())

/-- `migrateOldMigrationTable` (lines 74-199): step 1 checks the new
table; a populated new ledger wins and nothing further is issued.  Returns
the full trace of issued SQL statements and the outcome. -/
def migrateOldMigrationTable (env : ExecEnv) (dialect : DatabaseDialect)
    (config : MigrationTableConfig) : List String × Except Unit Unit :=
  let tr1 := [tableExistsSql dialect config.newTable config.newSchema]
  if tableExistsAns env dialect config.newTable config.newSchema then
    let tr1b := tr1 ++ [countTableRowsSql config.newTable config.newSchema]
    if gtZero (countTableRowsAns env config.newTable config.newSchema) then
      (tr1b, Except.ok ())
    else step2 env dialect config tr1b
  else step2 env dialect config tr1

/-- C6: whenever the probes report that the new ledger table exists with at
least one row, `migrateOldMigrationTable` issues exactly its two read-only
probes of the new table and stops with success: no insert, no table
creation, no schema creation — regardless of the old table's state (the
old table is never even probed). -/
theorem c6_noop_when_new_populated (env : ExecEnv) (dialect : DatabaseDialect)
    (config : MigrationTableConfig)
    (hex : tableExistsAns env dialect config.newTable config.newSchema = true)
    (hrows : gtZero (countTableRowsAns env config.newTable config.newSchema) = true) :
    migrateOldMigrationTable env dialect config =
      ([tableExistsSql dialect config.newTable config.newSchema,
        countTableRowsSql config.newTable config.newSchema], Except.ok ()) := by
  unfold migrateOldMigrationTable
  rw [hex, hrows]
  simp

/-- The configuration used by the default sqlite drivers. -/
def cfg0 : MigrationTableConfig :=
  ⟨"__wizzle_migrations", none, "__drizzle_migrations", none⟩

/-- An executor whose new-table probes report an existing, populated new
ledger and which throws on everything else. -/
def envC6 : ExecEnv :=
  ⟨fun q =>
    if q = tableExistsSql DatabaseDialect.sqlite "__wizzle_migrations" none then
      Except.ok [[("name", Val.vStr "__wizzle_migrations")]]
    else if q = countTableRowsSql "__wizzle_migrations" none then
      Except.ok [[("count", Val.vInt 3)]]
    else Except.error ()⟩

/-- Witness for C6 on the sqlite dialect with `envC6`. -/
theorem c6_noop_when_new_populated_witness :
    migrateOldMigrationTable envC6 DatabaseDialect.sqlite cfg0 =
      ([tableExistsSql DatabaseDialect.sqlite "__wizzle_migrations" none,
        countTableRowsSql "__wizzle_migrations" none], Except.ok ()) :=
  c6_noop_when_new_populated envC6 DatabaseDialect.sqlite cfg0
    (by decide) (by decide)

theorem execWrite_ok {env : ExecEnv} {tr : List String} {sqlq : String}
    {k : List String → List String × Except Unit Unit}
    (h : (env.respond sqlq).isOk = true) :
    execWrite env tr sqlq k = k (tr ++ [sqlq]) := by
  unfold execWrite
  cases hr : env.respond sqlq with
  | error e => rw [hr] at h; cases h
  | ok v => rfl

theorem createAndCopy_spec (env : ExecEnv) (dialect : DatabaseDialect)
    (config : MigrationTableConfig) (tr : List String)
    (hT : (env.respond (createTableSql dialect config)).isOk = true)
    (hC : (env.respond (copyRowsSql config
        (hasTagColumnAns env dialect config.oldTable config.oldSchema))).isOk = true) :
    createAndCopy env dialect config tr =
      (tr ++ [createTableSql dialect config,
              hasTagColumnSql dialect config.oldTable config.oldSchema,
              copyRowsSql config
                (hasTagColumnAns env dialect config.oldTable config.oldSchema)],
       Except.ok ()) := by
  unfold createAndCopy
  rw [execWrite_ok hT, execWrite_ok hC]
  simp

/-- The SQL statements of the optional schema-creation step. -/
def schemaWrites (dialect : DatabaseDialect) (config : MigrationTableConfig) :
    List String :=
  match dialect, config.newSchema with
  | DatabaseDialect.postgresql, some s => [createSchemaSql s]
  | _, _ => []

theorem step4_spec (env : ExecEnv) (dialect : DatabaseDialect)
    (config : MigrationTableConfig) (tr : List String)
    (hS : ∀ s2, config.newSchema = some s2 →
      dialect = DatabaseDialect.postgresql →
      (env.respond (createSchemaSql s2)).isOk = true)
    (hT : (env.respond (createTableSql dialect config)).isOk = true)
    (hC : (env.respond (copyRowsSql config
        (hasTagColumnAns env dialect config.oldTable config.oldSchema))).isOk = true) :
    step4 env dialect config tr =
      (tr ++ schemaWrites dialect config
        ++ [createTableSql dialect config,
            hasTagColumnSql dialect config.oldTable config.oldSchema,
            copyRowsSql config
              (hasTagColumnAns env dialect config.oldTable config.oldSchema)],
       Except.ok ()) := by
  unfold step4 schemaWrites
  cases dialect with
  | postgresql =>
    cases hns : config.newSchema with
    | none =>
      simp only []
      rw [createAndCopy_spec env _ config tr hT hC]
      simp
    | some s =>
      simp only []
      rw [execWrite_ok (hS s hns rfl),
          createAndCopy_spec env _ config _ hT hC]
  | mysql =>
    rw [createAndCopy_spec env _ config tr hT hC]
    simp
  | sqlite =>
    rw [createAndCopy_spec env _ config tr hT hC]
    simp
  | singlestore =>
    rw [createAndCopy_spec env _ config tr hT hC]
    simp

/-- A (schema, table) reference in the target database. -/
structure TableRef where
  schema : Option String
  name : String
deriving DecidableEq, Repr

/-- The ledger-relevant state of the target database: tables and their
rows. -/
abbrev DbState := List (TableRef × List LedgerRow)

def lookupTable : DbState → TableRef → Option (List LedgerRow)
  | [], _ => none
  | (r, rows) :: st, t => if r = t then some rows else lookupTable st t

/-- Append rows to an existing table. -/
def appendRows (st : DbState) (t : TableRef) (more : List LedgerRow) : DbState :=
  st.map fun p => if p.1 = t then (p.1, p.2 ++ more) else p

/-- The write statements step 4 can issue, in structured form. -/
inductive WriteOp where
  | createSchema (name : String)
  | createTable (ref : TableRef)
  | copyRows (src dst : TableRef) (withTag : Bool)
deriving DecidableEq, Repr

/-- `NULL` substituted for the `tag` column. -/
def clearTag (r : LedgerRow) : LedgerRow := { r with tag := none }

/-- SQL semantics of the three write statements: `CREATE SCHEMA` touches no
table; `CREATE TABLE IF NOT EXISTS` adds an empty table only when absent;
`INSERT INTO dst ... SELECT ... FROM src` appends the source rows, with
`NULL` for `tag` when the old table lacks that column. -/
def applyWrite (st : DbState) : WriteOp → DbState
  | .createSchema _ => st
  | .createTable ref =>
    if (lookupTable st ref).isSome then st else st ++ [(ref, [])]
  | .copyRows src dst withTag =>
    let rows := (lookupTable st src).getD []
    appendRows st dst (if withTag then rows else rows.map clearTag)

def applyWrites (st : DbState) (ops : List WriteOp) : DbState :=
  ops.foldl applyWrite st

def newRef (config : MigrationTableConfig) : TableRef :=
  ⟨config.newSchema, config.newTable⟩

def oldRef (config : MigrationTableConfig) : TableRef :=
  ⟨config.oldSchema, config.oldTable⟩

/-- The structured write sequence of step 4. -/
def writeOps (dialect : DatabaseDialect) (config : MigrationTableConfig)
    (hasTag : Bool) : List WriteOp :=
  (match dialect, config.newSchema with
   | DatabaseDialect.postgresql, some s => [WriteOp.createSchema s]
   | _, _ => []) ++
  [WriteOp.createTable (newRef config),
   WriteOp.copyRows (oldRef config) (newRef config) hasTag]

/-- The SQL string each structured write renders to. -/
def writeOpSql (dialect : DatabaseDialect) (config : MigrationTableConfig) :
    WriteOp → String
  | .createSchema s => createSchemaSql s
  | .createTable _ => createTableSql dialect config
  | .copyRows _ _ withTag => copyRowsSql config withTag

theorem lookupTable_append_ne {st : DbState} {ref t : TableRef}
    {rows : List LedgerRow} (h : ref ≠ t) :
    lookupTable (st ++ [(ref, rows)]) t = lookupTable st t := by
  induction st with
  | nil => simp [lookupTable, h]
  | cons e st ih =>
    by_cases he : e.1 = t
    · simp [lookupTable, he]
    · simp [lookupTable, he, ih]

theorem lookupTable_append_self {st : DbState} {t : TableRef}
    {rows : List LedgerRow} (h : lookupTable st t = none) :
    lookupTable (st ++ [(t, rows)]) t = some rows := by
  induction st with
  | nil => simp [lookupTable]
  | cons e st ih =>
    by_cases he : e.1 = t
    · rw [show e = (e.1, e.2) from rfl] at h
      simp [lookupTable, he] at h
    · rw [show e = (e.1, e.2) from rfl] at h
      simp [lookupTable, he] at h ⊢
      exact ih h

theorem lookupTable_cons (r : TableRef) (rows : List LedgerRow) (st : DbState)
    (t : TableRef) :
    lookupTable ((r, rows) :: st) t =
      if r = t then some rows else lookupTable st t := rfl

theorem appendRows_cons (r : TableRef) (rows : List LedgerRow) (st : DbState)
    (t : TableRef) (more : List LedgerRow) :
    appendRows ((r, rows) :: st) t more =
      (if r = t then (r, rows ++ more) else (r, rows)) :: appendRows st t more := rfl

theorem lookupTable_appendRows_self {st : DbState} {t : TableRef}
    {more : List LedgerRow} :
    lookupTable (appendRows st t more) t =
      (lookupTable st t).map (fun rows => rows ++ more) := by
  induction st with
  | nil => simp [lookupTable, appendRows]
  | cons e st ih =>
    obtain ⟨r, rows⟩ := e
    rw [appendRows_cons]
    by_cases he : r = t
    · subst he
      rw [if_pos rfl, lookupTable_cons, if_pos rfl, lookupTable_cons, if_pos rfl]
      rfl
    · rw [if_neg he, lookupTable_cons, if_neg he, lookupTable_cons, if_neg he]
      exact ih

theorem lookupTable_appendRows_ne {st : DbState} {t t2 : TableRef}
    {more : List LedgerRow} (h : t2 ≠ t) :
    lookupTable (appendRows st t more) t2 = lookupTable st t2 := by
  induction st with
  | nil => simp [lookupTable, appendRows]
  | cons e st ih =>
    obtain ⟨r, rows⟩ := e
    rw [appendRows_cons]
    by_cases he : r = t
    · subst he
      have h2 : ¬ r = t2 := fun hh => h hh.symm
      rw [if_pos rfl, lookupTable_cons, if_neg h2, lookupTable_cons, if_neg h2]
      exact ih
    · rw [if_neg he]
      by_cases he2 : r = t2
      · subst he2
        rw [lookupTable_cons, if_pos rfl, lookupTable_cons, if_pos rfl]
      · rw [lookupTable_cons, if_neg he2, lookupTable_cons, if_neg he2]
        exact ih

/-- The new-table probes of step 1: the existence probe, and the row-count
probe only when the existence probe answered true. -/
def newProbeList (env : ExecEnv) (dialect : DatabaseDialect)
    (config : MigrationTableConfig) : List String :=
  [tableExistsSql dialect config.newTable config.newSchema] ++
  (if tableExistsAns env dialect config.newTable config.newSchema then
    [countTableRowsSql config.newTable config.newSchema]
  else [])

/-- C7: when the old ledger exists with at least one row, the new ledger is
absent or empty, and the old table lacks a `tag` column,
`migrateOldMigrationTable` issues exactly its probes, the (optional) schema
creation, the new-table creation and one bulk `INSERT...SELECT` with `NULL`
for `tag` — and nothing else, so no statement modifies or drops the old
table.  The second conjunct gives the SQL semantics of the issued writes on
any database state: the old table's rows are unchanged, the new table ends
up with exactly the old rows with `NULL` substituted for `tag`, and every
other table is untouched.  The third conjunct ties the structured writes to
the traced SQL strings. -/
theorem c7_copy_with_null_tag (env : ExecEnv) (dialect : DatabaseDialect)
    (config : MigrationTableConfig)
    (hnew : tableExistsAns env dialect config.newTable config.newSchema = false
      ∨ (tableExistsAns env dialect config.newTable config.newSchema = true
         ∧ gtZero (countTableRowsAns env config.newTable config.newSchema) = false))
    (hold : tableExistsAns env dialect config.oldTable config.oldSchema = true)
    (hcnt : ∃ n : Int,
      countTableRowsAns env config.oldTable config.oldSchema = some n ∧ 0 < n)
    (htag : hasTagColumnAns env dialect config.oldTable config.oldSchema = false)
    (hS : ∀ s2, config.newSchema = some s2 → dialect = DatabaseDialect.postgresql →
      (env.respond (createSchemaSql s2)).isOk = true)
    (hT : (env.respond (createTableSql dialect config)).isOk = true)
    (hC : (env.respond (copyRowsSql config false)).isOk = true) :
    migrateOldMigrationTable env dialect config =
      (newProbeList env dialect config
        ++ [tableExistsSql dialect config.oldTable config.oldSchema,
            countTableRowsSql config.oldTable config.oldSchema]
        ++ schemaWrites dialect config
        ++ [createTableSql dialect config,
            hasTagColumnSql dialect config.oldTable config.oldSchema,
            copyRowsSql config false],
       Except.ok ())
    ∧ (∀ (st : DbState) (rowsOld : List LedgerRow),
        lookupTable st (oldRef config) = some rowsOld →
        lookupTable st (newRef config) = none →
        lookupTable (applyWrites st (writeOps dialect config false)) (newRef config)
          = some (rowsOld.map clearTag)
        ∧ lookupTable (applyWrites st (writeOps dialect config false)) (oldRef config)
          = some rowsOld
        ∧ ∀ t, t ≠ newRef config →
            lookupTable (applyWrites st (writeOps dialect config false)) t
              = lookupTable st t)
    ∧ schemaWrites dialect config
        ++ [createTableSql dialect config, copyRowsSql config false]
      = (writeOps dialect config false).map (writeOpSql dialect config) := by
  have heq : eqZero (countTableRowsAns env config.oldTable config.oldSchema) = false := by
    rcases hcnt with ⟨n, hn, hpos⟩
    simp only [eqZero, hn, decide_eq_false_iff_not]
    omega
  have hC2 : (env.respond (copyRowsSql config
      (hasTagColumnAns env dialect config.oldTable config.oldSchema))).isOk = true := by
    rw [htag]; exact hC
  refine ⟨?_, ?_, ?_⟩
  · have hstep2 : ∀ tr : List String, step2 env dialect config tr =
        (tr ++ [tableExistsSql dialect config.oldTable config.oldSchema,
                countTableRowsSql config.oldTable config.oldSchema]
           ++ schemaWrites dialect config
           ++ [createTableSql dialect config,
               hasTagColumnSql dialect config.oldTable config.oldSchema,
               copyRowsSql config false],
         Except.ok ()) := by
      intro tr
      unfold step2
      rw [hold, heq]
      simp only [if_true, Bool.false_eq_true, if_false]
      rw [step4_spec env dialect config _ hS hT hC2, htag]
      simp [List.append_assoc]
    unfold migrateOldMigrationTable
    rcases hnew with h | ⟨h, h2⟩
    · rw [h]
      simp only [Bool.false_eq_true, if_false]
      rw [hstep2]
      simp [newProbeList, h, List.append_assoc]
    · rw [h, h2]
      simp only [if_true, Bool.false_eq_true, if_false]
      rw [hstep2]
      simp [newProbeList, h, List.append_assoc]
  · intro st rowsOld hOld hNew
    have hne : oldRef config ≠ newRef config := by
      intro he
      rw [he, hNew] at hOld
      cases hOld
    have hsch : applyWrites st (writeOps dialect config false) =
        applyWrite (applyWrite st (WriteOp.createTable (newRef config)))
          (WriteOp.copyRows (oldRef config) (newRef config) false) := by
      unfold writeOps applyWrites
      cases dialect <;> cases config.newSchema <;> rfl
    have hst1eq : applyWrite st (WriteOp.createTable (newRef config)) =
        st ++ [(newRef config, [])] := by
      simp [applyWrite, hNew]
    have hOld1 : lookupTable (st ++ [(newRef config, [])]) (oldRef config)
        = some rowsOld := by
      rw [lookupTable_append_ne hne.symm]
      exact hOld
    have hNew1 : lookupTable (st ++ [(newRef config, [])]) (newRef config)
        = some [] :=
      lookupTable_append_self hNew
    have hcp : applyWrite (st ++ [(newRef config, [])])
        (WriteOp.copyRows (oldRef config) (newRef config) false) =
        appendRows (st ++ [(newRef config, [])]) (newRef config)
          (rowsOld.map clearTag) := by
      simp [applyWrite, hOld1]
    refine ⟨?_, ?_, ?_⟩
    · rw [hsch, hst1eq, hcp, lookupTable_appendRows_self, hNew1]
      rfl
    · rw [hsch, hst1eq, hcp, lookupTable_appendRows_ne hne, hOld1]
    · intro t ht
      rw [hsch, hst1eq, hcp, lookupTable_appendRows_ne ht,
          lookupTable_append_ne (fun hh => ht hh.symm)]
  · unfold schemaWrites writeOps writeOpSql newRef oldRef
    cases dialect <;> cases config.newSchema <;> rfl

/-- An executor for the C7 scenario on sqlite: the new ledger is absent,
the old one exists with two rows and no `tag` column, and the two write
statements succeed; everything else throws. -/
def envC7 : ExecEnv :=
  ⟨fun q =>
    if q = tableExistsSql DatabaseDialect.sqlite "__wizzle_migrations" none then
      Except.ok []
    else if q = tableExistsSql DatabaseDialect.sqlite "__drizzle_migrations" none then
      Except.ok [[("name", Val.vStr "__drizzle_migrations")]]
    else if q = countTableRowsSql "__drizzle_migrations" none then
      Except.ok [[("count", Val.vInt 2)]]
    else if q = hasTagColumnSql DatabaseDialect.sqlite "__drizzle_migrations" none then
      Except.ok [[("name", Val.vStr "hash")], [("name", Val.vStr "created_at")]]
    else if q = createTableSql DatabaseDialect.sqlite cfg0 then Except.ok []
    else if q = copyRowsSql cfg0 false then Except.ok []
    else Except.error ()⟩

/-- Witness for C7 on the sqlite dialect with `envC7`. -/
theorem c7_copy_with_null_tag_witness :
    migrateOldMigrationTable envC7 DatabaseDialect.sqlite cfg0 =
      (newProbeList envC7 DatabaseDialect.sqlite cfg0
        ++ [tableExistsSql DatabaseDialect.sqlite "__drizzle_migrations" none,
            countTableRowsSql "__drizzle_migrations" none]
        ++ schemaWrites DatabaseDialect.sqlite cfg0
        ++ [createTableSql DatabaseDialect.sqlite cfg0,
            hasTagColumnSql DatabaseDialect.sqlite "__drizzle_migrations" none,
            copyRowsSql cfg0 false],
       Except.ok ()) :=
  (c7_copy_with_null_tag envC7 DatabaseDialect.sqlite cfg0
    (Or.inl (by decide)) (by decide) ⟨2, by decide, by decide⟩ (by decide)
    (fun s2 h _ => Option.noConfusion h) (by decide) (by decide)).1

/-- C8: every probe of the Bookkeeping Table Manager that throws is
swallowed as a negative answer — `tableExists` answers `false`,
`countTableRows` answers `0` (and the `tag` probe `false`, folded into the
third conjunct) — and no probe error ever escapes
`migrateOldMigrationTable`: as long as the write statements themselves
succeed, the outcome is `ok` no matter how the probes behave. -/
theorem c8_probe_errors_swallowed :
    (∀ (env : ExecEnv) (dialect : DatabaseDialect) (t : String) (s : Option String),
       env.respond (tableExistsSql dialect t s) = Except.error () →
       tableExistsAns env dialect t s = false)
    ∧ (∀ (env : ExecEnv) (t : String) (s : Option String),
       env.respond (countTableRowsSql t s) = Except.error () →
       countTableRowsAns env t s = some 0)
    ∧ (∀ (env : ExecEnv) (dialect : DatabaseDialect) (config : MigrationTableConfig),
       (∀ s2, config.newSchema = some s2 → dialect = DatabaseDialect.postgresql →
         (env.respond (createSchemaSql s2)).isOk = true) →
       (env.respond (createTableSql dialect config)).isOk = true →
       (env.respond (copyRowsSql config true)).isOk = true →
       (env.respond (copyRowsSql config false)).isOk = true →
       (migrateOldMigrationTable env dialect config).2 = Except.ok ()) := by
  refine ⟨?_, ?_, ?_⟩
  · intro env dialect t s h
    simp [tableExistsAns, h]
  · intro env t s h
    simp [countTableRowsAns, h]
  · intro env dialect config hS hT hcT hcF
    have hC : (env.respond (copyRowsSql config
        (hasTagColumnAns env dialect config.oldTable config.oldSchema))).isOk
        = true := by
      cases hasTagColumnAns env dialect config.oldTable config.oldSchema
      · exact hcF
      · exact hcT
    have hstep2 : ∀ tr, (step2 env dialect config tr).2 = Except.ok () := by
      intro tr
      unfold step2
      by_cases h1 : tableExistsAns env dialect config.oldTable config.oldSchema
      · rw [h1]
        simp only [if_true]
        by_cases h2 : eqZero (countTableRowsAns env config.oldTable config.oldSchema)
        · rw [h2]
          simp
        · rw [Bool.not_eq_true] at h2
          rw [h2]
          simp only [Bool.false_eq_true, if_false]
          rw [step4_spec env dialect config _ hS hT hC]
      · rw [Bool.not_eq_true] at h1
        rw [h1]
        simp
    unfold migrateOldMigrationTable
    by_cases h1 : tableExistsAns env dialect config.newTable config.newSchema
    · rw [h1]
      simp only [if_true]
      by_cases h2 : gtZero (countTableRowsAns env config.newTable config.newSchema)
      · rw [h2]
        simp
      · rw [Bool.not_eq_true] at h2
        rw [h2]
        simp only [Bool.false_eq_true, if_false]
        exact hstep2 _
    · rw [Bool.not_eq_true] at h1
      rw [h1]
      simp only [Bool.false_eq_true, if_false]
      exact hstep2 _

/-- An executor that throws on every statement. -/
def envFailAll : ExecEnv := ⟨fun _ => Except.error ()⟩

/-- An executor that throws on every probe but accepts the sqlite write
statements. -/
def envC8 : ExecEnv :=
  ⟨fun q =>
    if q = createTableSql DatabaseDialect.sqlite cfg0 then Except.ok []
    else if q = copyRowsSql cfg0 true then Except.ok []
    else if q = copyRowsSql cfg0 false then Except.ok []
    else Except.error ()⟩

/-- Witness for C8: all-throwing probes yield `false` / `0`, and a run in
which every probe throws still completes with `ok`. -/
theorem c8_probe_errors_swallowed_witness :
    tableExistsAns envFailAll DatabaseDialect.postgresql "__wizzle_migrations" none
      = false
    ∧ countTableRowsAns envFailAll "__wizzle_migrations" none = some 0
    ∧ (migrateOldMigrationTable envC8 DatabaseDialect.sqlite cfg0).2
      = Except.ok () :=
  ⟨c8_probe_errors_swallowed.1 envFailAll DatabaseDialect.postgresql
      "__wizzle_migrations" none rfl,
   c8_probe_errors_swallowed.2.1 envFailAll "__wizzle_migrations" none rfl,
   c8_probe_errors_swallowed.2.2 envC8 DatabaseDialect.sqlite cfg0
     (fun s2 h _ => Option.noConfusion h) (by decide) (by decide) (by decide)⟩

end Bookkeeping

namespace Converter

/-- A successfully parsed snapshot document, as consumed by the schema
generator: `dialect` is the document's `dialect` field (`none` when the
JSON has no such field), which `detectDialect` inspects; `body` abstracts
the rest of the document (tables, enums, ...), which the converter forwards
to the per-dialect generators untouched. -/
structure SnapshotDoc where
  dialect : Option String
  body : String
deriving DecidableEq, Repr

/-- Content of a per-entry snapshot JSON file: text on which `JSON.parse`
throws (`malformed`), or the parsed document. -/
inductive Doc where
  | malformed
  | parsed (snapshot : SnapshotDoc)
deriving DecidableEq, Repr

/-- One entry of the journal index `meta/_journal.json` (`idx`, `when`,
`tag`, `breakpoints`). -/
structure JournalEntry where
  idx : Nat
  whenMillis : Nat
  tag : String
  breakpoints : Bool
deriving DecidableEq, Repr

/-- The journal index file: parseable with its ordered entries, or
malformed JSON. -/
inductive JournalFile where
  | malformed
  | wellFormed (entries : List JournalEntry)
deriving DecidableEq, Repr

/-- The legacy source directory of `generateFromJournal`: existence of the
folder and its `meta` subfolder, the `meta/_journal.json` file (`none` =
absent), the per-prefix `meta/<prefix>_snapshot.json` files, and the
per-tag `<tag>.sql` files. -/
structure SourceDir where
  present : Bool
  metaPresent : Bool
  journalFile : Option JournalFile
  snapshotFiles : List (String × Doc)
  sqlFiles : List (String × String)
deriving DecidableEq, Repr

/-- `existsSync` + `readFileSync` on a named file of the source. -/
def lookupFile {α : Type} (fs : List (String × α)) (k : String) : Option α :=
  (fs.find? fun p => p.1 == k).map Prod.snd

/-- `parseTagName`: strip the numeric prefix — everything after the first
underscore, or the whole tag when it has none. -/
def parseTagName (tag : String) : String :=
  let cs := tag.toList
  let before := cs.takeWhile fun c => c ≠ '_'
  if before.length = cs.length then tag
  else String.mk (cs.drop (before.length + 1))

/-- `tag.split('_')[0]`: the characters before the first underscore. -/
def tagPrefixOf (tag : String) : String :=
  String.mk (tag.toList.takeWhile fun c => c ≠ '_')

/-- The result of `validateJournalStructure`. -/
structure ValidationResult where
  valid : Bool
  missingFiles : List String
  journal : Option (List JournalEntry)
deriving DecidableEq, Repr

/-- `validateJournalStructure` (part_007 lines 51-115): check the folder,
the `meta` folder and the journal file in turn, then collect every entry's
missing snapshot or SQL file; `journal` is returned whenever it parsed. -/
def validateJournalStructure (src : SourceDir) : ValidationResult :=
  if src.present = false then
    { valid := false, missingFiles := ["<source>"], journal := none }
  else if src.metaPresent = false then
    { valid := false, missingFiles := ["meta"], journal := none }
  else
    match src.journalFile with
    | none =>
      { valid := false, missingFiles := ["meta/_journal.json"], journal := none }
    | some JournalFile.malformed =>
      { valid := false, missingFiles := ["meta/_journal.json (malformed)"],
        journal := none }
    | some (JournalFile.wellFormed entries) =>
      let missing := entries.foldl
        (fun acc e =>
          let pfx := tagPrefixOf e.tag
          let acc2 :=
            if (lookupFile src.snapshotFiles pfx).isSome then acc
            else acc ++ ["meta/" ++ pfx ++ "_snapshot.json"]
          if (lookupFile src.sqlFiles e.tag).isSome then acc2
          else acc2 ++ [e.tag ++ ".sql"]) []
      { valid := missing.isEmpty, missingFiles := missing,
        journal := some entries }

/-- The `Casing` option (`'camel' | 'preserve'`) the converter forwards to
the schema generators; its value is opaque to the converter itself. -/
inductive Casing where
  | camel
  | preserve
deriving DecidableEq, Repr

/-- The `Dialect` union of the schema generator module. -/
inductive Dialect where
  | postgresql
  | mysql
  | sqlite
  | turso
  | singlestore
  | gel
deriving DecidableEq, Repr

/-- `detectDialect`: read the snapshot's `dialect` field, return the
matching dialect, and `throw new Error` on anything else — including a
missing field. -/
def detectDialect (snapshot : SnapshotDoc) : Except Unit Dialect :=
  let dialect := snapshot.dialect
  if dialect = some "postgresql" then Except.ok Dialect.postgresql
  else if dialect = some "mysql" then Except.ok Dialect.mysql
  else if dialect = some "sqlite" then Except.ok Dialect.sqlite
  else if dialect = some "singlestore" then Except.ok Dialect.singlestore
  else if dialect = some "gel" then Except.ok Dialect.gel
  else if dialect = some "turso" then Except.ok Dialect.turso
  else Except.error ()

def casingTag : Casing → String
  | Casing.camel => "camel"
  | Casing.preserve => "preserve"

/-- Modelled from the spec: `schemaToTypeScript` of `introspect-pg` is code
of this repository missing from src/ (only its importer, the schema
generator module, is present).  Per §1 the TypeScript code generation
behind it is an out-of-scope collaborator specified only at its interface:
a deterministic, total function from a parsed snapshot and a casing to the
text of a schema file, a block of import lines followed by code lines. -/
def postgresSchemaToTypeScript (snapshot : SnapshotDoc) (casing : Casing) :
    String :=
  "import { pgTable } from \"drizzle-orm/pg-core\"\nexport const schema = pg_"
    ++ casingTag casing ++ "(" ++ snapshot.body ++ ")"

/-- Modelled from the spec: `schemaToTypeScript` of `introspect-mysql`,
missing from src/; same interface as `postgresSchemaToTypeScript`. -/
def mysqlSchemaToTypeScript (snapshot : SnapshotDoc) (casing : Casing) :
    String :=
  "import { mysqlTable } from \"drizzle-orm/mysql-core\"\nexport const schema = my_"
    ++ casingTag casing ++ "(" ++ snapshot.body ++ ")"

/-- Modelled from the spec: `schemaToTypeScript` of `introspect-sqlite`,
missing from src/; same interface as `postgresSchemaToTypeScript`. -/
def sqliteSchemaToTypeScript (snapshot : SnapshotDoc) (casing : Casing) :
    String :=
  "import { sqliteTable } from \"drizzle-orm/sqlite-core\"\nexport const schema = lite_"
    ++ casingTag casing ++ "(" ++ snapshot.body ++ ")"

/-- Modelled from the spec: `schemaToTypeScript` of
`introspect-singlestore`, missing from src/; same interface as
`postgresSchemaToTypeScript`. -/
def singlestoreSchemaToTypeScript (snapshot : SnapshotDoc) (casing : Casing) :
    String :=
  "import { singlestoreTable } from \"drizzle-orm/singlestore-core\"\nexport const schema = ss_"
    ++ casingTag casing ++ "(" ++ snapshot.body ++ ")"

/-- Modelled from the spec: `schemaToTypeScript` of `introspect-gel`,
missing from src/; same interface as `postgresSchemaToTypeScript`. -/
def gelSchemaToTypeScript (snapshot : SnapshotDoc) (casing : Casing) :
    String :=
  "import { gelTable } from \"drizzle-orm/gel-core\"\nexport const schema = gel_"
    ++ casingTag casing ++ "(" ++ snapshot.body ++ ")"

/-- Modelled from the spec: `relationsToTypeScript` of the introspect
command module is code of this repository missing from src/; as above it is
specified only at its interface: a deterministic, total function producing
the relations file text. -/
def relationsToTypeScript (snapshot : SnapshotDoc) (casing : Casing) :
    String :=
  "import { relations } from \"drizzle-orm/relations\"\nexport const rel = rel_"
    ++ casingTag casing ++ "(" ++ snapshot.body ++ ")"

/-- The `findIndex` predicate of `combineSchemaAndRelations`: a line that
ends the import block is nonempty after trimming and starts with neither
`import` nor `//`. -/
def isCodeLine (line : String) : Bool :=
  line.trim != "" && !(line.startsWith "import") && !(line.startsWith "//")

/-- JavaScript `Array.prototype.findIndex`: the first index satisfying the
predicate, `-1` when none does. -/
def jsFindIndex (p : String → Bool) (l : List String) : Int :=
  match l.findIdx? p with
  | some i => Int.ofNat i
  | none => -1

/-- JavaScript `slice(0, e)`, with its negative-index wrapping. -/
def jsSliceTo (l : List String) (e : Int) : List String :=
  let len : Int := Int.ofNat l.length
  let e2 := if e < 0 then max (len + e) 0 else min e len
  l.take e2.toNat

/-- JavaScript `slice(b)`, with its negative-index wrapping. -/
def jsSliceFrom (l : List String) (b : Int) : List String :=
  let len : Int := Int.ofNat l.length
  let b2 := if b < 0 then max (len + b) 0 else min b len
  l.drop b2.toNat

/-- JavaScript `s.includes(pat)`, for a nonempty pattern. -/
def containsSubstring (s pat : String) : Bool :=
  decide ((s.splitOn pat).length > 1)

/-- `new Set([...a, ...b])` spread back into an array: first occurrences,
in order. -/
def dedupFirst (l : List String) : List String :=
  l.foldl (fun acc s => if acc.contains s then acc else acc ++ [s]) []

/-- `combineSchemaAndRelations`: split both files into lines, separate the
leading import block from the code, drop relations imports that re-import
from `./schema` (these would be circular in the combined file), merge and
deduplicate the import lines, and concatenate imports, schema code and
relations code. -/
def combineSchemaAndRelations (schema relations : String) : String :=
  let schemaLines := schema.splitOn "\n"
  let relationsLines := relations.splitOn "\n"
  let schemaImportEnd := jsFindIndex isCodeLine schemaLines
  let relationsImportEnd := jsFindIndex isCodeLine relationsLines
  let schemaImports := jsSliceTo schemaLines schemaImportEnd
  let schemaCode := jsSliceFrom schemaLines schemaImportEnd
  let relationsImports := jsSliceTo relationsLines relationsImportEnd
  let relationsCode := jsSliceFrom relationsLines relationsImportEnd
  let filteredRelationsImports := relationsImports.filter fun line =>
    let trimmed := line.trim
    if !(trimmed.startsWith "import") then true
    else if containsSubstring trimmed "from \"./schema\""
        || containsSubstring trimmed "from \x27./schema\x27" then false
    else true
  let allImports := dedupFirst (schemaImports ++ filteredRelationsImports)
  let mergedImports := String.intercalate "\n" allImports
  mergedImports ++ "\n" ++ String.intercalate "\n" schemaCode
    ++ "\n" ++ String.intercalate "\n" relationsCode

/-- The `{ schema, relations, combined }` result of
`generateSchemaFromSnapshot` (of the per-dialect generator results only
the `.file` strings are consumed). -/
structure GenResult where
  schema : String
  relations : String
  combined : String
deriving DecidableEq, Repr

/-- `generateSchemaFromSnapshot`: detect the dialect — throwing on an
unknown one —, run the per-dialect schema generator and the relations
generator (SingleStore gets `{ file: '' }` instead of relations), and
combine the two files.  The `switch`'s `default: throw` arm is unreachable
once `detectDialect` has returned a `Dialect`, so the only throw is
`detectDialect`'s. -/
def generateSchemaFromSnapshot (snapshot : SnapshotDoc) (casing : Casing) :
    Except Unit GenResult :=
  match detectDialect snapshot with
  | Except.error e => Except.error e
  | Except.ok d =>
    let pair :=
      match d with
      | Dialect.postgresql =>
        (postgresSchemaToTypeScript snapshot casing,
         relationsToTypeScript snapshot casing)
      | Dialect.mysql =>
        (mysqlSchemaToTypeScript snapshot casing,
         relationsToTypeScript snapshot casing)
      | Dialect.sqlite =>
        (sqliteSchemaToTypeScript snapshot casing,
         relationsToTypeScript snapshot casing)
      | Dialect.turso =>
        (sqliteSchemaToTypeScript snapshot casing,
         relationsToTypeScript snapshot casing)
      | Dialect.singlestore =>
        (singlestoreSchemaToTypeScript snapshot casing, "")
      | Dialect.gel =>
        (gelSchemaToTypeScript snapshot casing,
         relationsToTypeScript snapshot casing)
    Except.ok ⟨pair.1, pair.2, combineSchemaAndRelations pair.1 pair.2⟩

/-- Whether a snapshot file's content survives the real-run-only processing
(`JSON.parse(snapshotContent)`, then `generateSchemaFromSnapshot`). -/
def docConvertsOk (casing : Casing) : Doc → Bool
  | Doc.malformed => false
  | Doc.parsed snapshot => (generateSchemaFromSnapshot snapshot casing).isOk

/-- One filesystem write of the conversion loop. -/
inductive WriteEvt where
  | mkdirNew (folder : String)
  | writeSnapshot (folder : String) (doc : Doc)
  | writeSql (folder : String) (content : String)
  | writeSchema (folder : String) (content : String)
deriving DecidableEq, Repr

/-- The `for (const entry of journal.entries)` loop: skip entries whose
derived folder name is already in the destination chain (the set is
computed once, before the loop); otherwise read the snapshot and SQL
files, and either just count (dry run) or create the folder, copy both
files, and then — only on a real run, after those first writes — run
`JSON.parse(snapshotContent)` and `generateSchemaFromSnapshot` and write
`schema.ts`; either of the two can throw, aborting the run with the
entry's folder only partially written.  Returns the writes issued and
either `(migratedCount, skippedCount)` or the thrown error. -/
def convertEntries (src : SourceDir) (existing : List String) (dryRun : Bool)
    (casing : Casing) :
    List JournalEntry → List WriteEvt × Except Unit (Nat × Nat)
  | [] => ([], Except.ok (0, 0))
  | e :: es =>
    let name := parseTagName e.tag
    let pfx := tagPrefixOf e.tag
    let newFolderName := toString e.whenMillis ++ "_" ++ name
    if existing.contains newFolderName then
      let rest := convertEntries src existing dryRun casing es
      (rest.1, rest.2.map fun p => (p.1, p.2 + 1))
    else
      match lookupFile src.snapshotFiles pfx, lookupFile src.sqlFiles e.tag with
      | some doc, some sqlContent =>
        if dryRun then
          let rest := convertEntries src existing dryRun casing es
          (rest.1, rest.2.map fun p => (p.1 + 1, p.2))
        else
          match doc with
          | Doc.malformed =>
            ([WriteEvt.mkdirNew newFolderName,
              WriteEvt.writeSnapshot newFolderName doc,
              WriteEvt.writeSql newFolderName sqlContent], Except.error ())
          | Doc.parsed snapshot =>
            match generateSchemaFromSnapshot snapshot casing with
            | Except.error _ =>
              ([WriteEvt.mkdirNew newFolderName,
                WriteEvt.writeSnapshot newFolderName doc,
                WriteEvt.writeSql newFolderName sqlContent], Except.error ())
            | Except.ok res =>
              let rest := convertEntries src existing dryRun casing es
              (WriteEvt.mkdirNew newFolderName
                :: WriteEvt.writeSnapshot newFolderName doc
                :: WriteEvt.writeSql newFolderName sqlContent
                :: WriteEvt.writeSchema newFolderName res.combined
                :: rest.1,
               rest.2.map fun p => (p.1 + 1, p.2))
      | _, _ => ([], Except.error ())

/-- `generateFromJournal` (part_007 lines 141-253): validate (exiting
fatally on an invalid structure before any write), compute the existing
new-format folder set — `outChain` stands for `buildSnapshotChain(out)`,
consulted only when the destination exists — then convert each entry with
the configured casing (`'camel'` by default).  The hybrid-structure check
only logs and is omitted. -/
def generateFromJournal (src : SourceDir) (outPresent : Bool)
    (outChain : List String) (dryRun : Bool) (casing : Casing) :
    List WriteEvt × Except Unit (Nat × Nat) :=
  let validation := validateJournalStructure src
  if validation.valid = false then ([], Except.error ())
  else
    match validation.journal with
    | none => ([], Except.error ())
    | some entries =>
      let existing := if outPresent then outChain else []
      convertEntries src existing dryRun casing entries

theorem convertEntries_dry_no_writes (src : SourceDir) (existing : List String)
    (casing : Casing) :
    ∀ es : List JournalEntry,
      (convertEntries src existing true casing es).1 = [] := by
  intro es
  induction es with
  | nil => rfl
  | cons e es ih =>
    simp only [convertEntries]
    by_cases hc : (toString e.whenMillis ++ "_" ++ parseTagName e.tag) ∈ existing
    · simp [hc, ih]
    · cases h1 : lookupFile src.snapshotFiles (tagPrefixOf e.tag) with
      | none => simp [hc, h1]
      | some doc =>
        cases h2 : lookupFile src.sqlFiles e.tag with
        | none => simp [hc, h1, h2]
        | some sqlc => simp [hc, h1, h2, ih]

theorem convertEntries_counts (src : SourceDir) (existing : List String)
    (casing : Casing)
    (hdocs : ∀ pd ∈ src.snapshotFiles, docConvertsOk casing pd.2 = true) :
    ∀ es : List JournalEntry,
      (convertEntries src existing true casing es).2 =
        (convertEntries src existing false casing es).2 := by
  intro es
  induction es with
  | nil => rfl
  | cons e es ih =>
    simp only [convertEntries]
    by_cases hc : (toString e.whenMillis ++ "_" ++ parseTagName e.tag) ∈ existing
    · simp [hc, ih]
    · cases h1 : lookupFile src.snapshotFiles (tagPrefixOf e.tag) with
      | none => simp [hc, h1]
      | some doc =>
        cases h2 : lookupFile src.sqlFiles e.tag with
        | none => simp [hc, h1, h2]
        | some sqlc =>
          have hdoc : docConvertsOk casing doc = true := by
            unfold lookupFile at h1
            cases hf : src.snapshotFiles.find?
                (fun p => p.1 == tagPrefixOf e.tag) with
            | none => rw [hf] at h1; cases h1
            | some pd =>
              rw [hf] at h1
              have hpd : pd.2 = doc := by simpa using h1
              have := hdocs pd (List.mem_of_find?_eq_some hf)
              rw [hpd] at this
              exact this
          cases doc with
          | malformed => simp [docConvertsOk] at hdoc
          | parsed snapshot =>
            cases hg : generateSchemaFromSnapshot snapshot casing with
            | error err =>
              simp [docConvertsOk, hg, Except.isOk, Except.toBool] at hdoc
            | ok res => simp [hc, h1, h2, hg, ih]

/-- C9 (amended): a dry run issues no filesystem write, for every source
and destination state; and provided every snapshot document of the source
survives the real-run-only processing — `JSON.parse` succeeds and
`generateSchemaFromSnapshot` recognises its dialect — the counts outcome
of a dry run is identical to that of a real run over the same initial
inputs.  The proviso is forced by `c9_counterexample`: only a real run
parses each copied snapshot and generates `schema.ts`. -/
theorem c9_dry_run_no_writes_and_counts (src : SourceDir) (outPresent : Bool)
    (outChain : List String) (casing : Casing) :
    (generateFromJournal src outPresent outChain true casing).1 = []
    ∧ ((∀ pd ∈ src.snapshotFiles, docConvertsOk casing pd.2 = true) →
       (generateFromJournal src outPresent outChain true casing).2
         = (generateFromJournal src outPresent outChain false casing).2) := by
  have hgen : ∀ dr : Bool, generateFromJournal src outPresent outChain dr casing =
      (if (validateJournalStructure src).valid = false then ([], Except.error ())
       else
         match (validateJournalStructure src).journal with
         | none => ([], Except.error ())
         | some entries =>
           convertEntries src (if outPresent then outChain else []) dr casing
             entries) :=
    fun _ => rfl
  constructor
  · rw [hgen]
    by_cases hv : (validateJournalStructure src).valid = false
    · simp [hv]
    · rw [if_neg hv]
      cases hj : (validateJournalStructure src).journal with
      | none => rfl
      | some entries =>
        exact convertEntries_dry_no_writes src _ casing entries
  · intro hdocs
    rw [hgen, hgen]
    by_cases hv : (validateJournalStructure src).valid = false
    · simp [hv]
    · rw [if_neg hv, if_neg hv]
      cases hj : (validateJournalStructure src).journal with
      | none => rfl
      | some entries =>
        exact convertEntries_counts src _ casing hdocs entries

/-- A structurally valid legacy source whose single snapshot document is
unparseable JSON. -/
def convSrcBad : SourceDir :=
  ⟨true, true,
   some (JournalFile.wellFormed [⟨0, 1000, "0000_foo", true⟩]),
   [("0000", Doc.malformed)],
   [("0000_foo", "CREATE TABLE t (x int);")]⟩

/-- A structurally valid legacy source whose single snapshot parses but
carries a dialect `detectDialect` rejects. -/
def convSrcBadDialect : SourceDir :=
  ⟨true, true,
   some (JournalFile.wellFormed [⟨0, 2000, "0000_baz", true⟩]),
   [("0000", Doc.parsed ⟨some "mssql", "tables_v"⟩)],
   [("0000_baz", "CREATE TABLE v (z int);")]⟩

/-- C9 counterexample: on `convSrcBad` (which passes validation — the
journal parses and every referenced file exists) the dry run reports
`(migrated, skipped) = (1, 0)`, but the real run over the same inputs
throws inside `JSON.parse(snapshotContent)` after writing `snapshot.json`
and `up.sql`, and reports no counts at all; likewise on
`convSrcBadDialect`, where the real run throws inside `detectDialect`
(`Unknown dialect`) after the same partial writes.  So the dry run's
reported counts are not equal to those of a real run on every input. -/
theorem c9_counterexample :
    generateFromJournal convSrcBad false [] true Casing.camel
      = ([], Except.ok (1, 0))
    ∧ (generateFromJournal convSrcBad false [] false Casing.camel).2
      = Except.error ()
    ∧ (generateFromJournal convSrcBad false [] false Casing.camel).1 ≠ []
    ∧ generateFromJournal convSrcBadDialect false [] true Casing.camel
      = ([], Except.ok (1, 0))
    ∧ (generateFromJournal convSrcBadDialect false [] false Casing.camel).2
      = Except.error () :=
  ⟨rfl, rfl, fun h => List.noConfusion h, rfl, rfl⟩

/-- A structurally valid legacy source whose snapshot parses with a
recognised dialect. -/
def convSrcGood : SourceDir :=
  ⟨true, true,
   some (JournalFile.wellFormed [⟨0, 500, "0000_bar", true⟩]),
   [("0000", Doc.parsed ⟨some "postgresql", "users_v7"⟩)],
   [("0000_bar", "CREATE TABLE u (y int);")]⟩

/-- Witness for C9's amended statement on `convSrcGood`. -/
theorem c9_dry_run_no_writes_and_counts_witness :
    (generateFromJournal convSrcGood false [] true Casing.camel).1 = []
    ∧ (generateFromJournal convSrcGood false [] true Casing.camel).2
      = (generateFromJournal convSrcGood false [] false Casing.camel).2 :=
  ⟨(c9_dry_run_no_writes_and_counts convSrcGood false [] Casing.camel).1,
   (c9_dry_run_no_writes_and_counts convSrcGood false [] Casing.camel).2
     (by decide)⟩

end Converter

end Wizzle
